import Mathlib

/-!
# Verification of the 2D articulated-body kinematics and physics core

Shallow embedding, over the real numbers, of the core of the
Pyxl.Puppyt repository:

* `src/core/kinematics.ts` — joint hierarchy, base angles, forward
  kinematics (`computeSkeleton`), the closed-form two-bone IK solver
  (`solveIK`);
* `src/core/interpolation.ts` — pose interpolation (`interpolatePoses`);
* `src/core/physics.ts` — the Verlet ragdoll simulator
  (`createPhysicsBodyFromPose`, `updatePhysicsBody`,
  `extractPoseFromPhysicsBody`) and `shortestAngleDiff`.

JavaScript numbers are modelled as real numbers; `Math.atan2 dy dx` is
modelled as the argument of the complex number `dx + dy·i`;
`Math.hypot` as `Real.sqrt` of the sum of squares.  The string joint
keys of the source form a closed 16-element set and are modelled by the
inductive type `Joint`; the source's string-keyed records (`PoseData`,
the `hierarchy` table, `BASE_ANGLES`) become functions out of `Joint`.
-/

noncomputable section

open Real

/-- 2D point, `{x, y}` in the source (`types.ts`). -/
structure Point where
  x : ℝ
  y : ℝ
deriving DecidableEq

/-- `Math.hypot dx dy`. -/
def hypot (dx dy : ℝ) : ℝ := Real.sqrt (dx * dx + dy * dy)

/-- `Math.atan2 y x`, modelled as the principal argument of `x + y·i`.
Its value lies in `(-π, π]` and for `x > 0` it is `arctan (y/x)`. -/
def atan2 (y x : ℝ) : ℝ := Complex.arg (Complex.mk x y)

/-- The 16 joint identifiers of the fixed hierarchy
(`hierarchy` in `kinematics.ts`): `root`, `torso`, `waist`, `head`,
`SIDE.shoulder`, `SIDE.elbow`, `SIDE.hand`, `SIDE.hip`, `SIDE.knee`,
`SIDE.foot` for `SIDE ∈ {left, right}`. -/
inductive Joint where
  | root | torso | waist | head
  | lShoulder | lElbow | lHand
  | rShoulder | rElbow | rHand
  | lHip | lKnee | lFoot
  | rHip | rKnee | rFoot
deriving DecidableEq, Repr, Fintype

open Joint

/-- Per-side block of local joint angles of a `PoseData`
(the `left`/`right` sub-records in `types.ts`). -/
structure SidePose where
  shoulder : ℝ
  elbow : ℝ
  hand : ℝ
  hip : ℝ
  knee : ℝ
  foot : ℝ

/-- `PoseData`: root offset plus the named local angles (radians). -/
structure PoseData where
  offset : Point
  torso : ℝ
  waist : ℝ
  head : ℝ
  left : SidePose
  right : SidePose

/-- The `children` lists of the `hierarchy` table in `kinematics.ts`. -/
def childrenOf : Joint → List Joint
  | .root => [.torso, .waist]
  | .torso => [.head, .lShoulder, .rShoulder]
  | .waist => [.lHip, .rHip]
  | .head => []
  | .lShoulder => [.lElbow]
  | .lElbow => [.lHand]
  | .lHand => []
  | .rShoulder => [.rElbow]
  | .rElbow => [.rHand]
  | .rHand => []
  | .lHip => [.lKnee]
  | .lKnee => [.lFoot]
  | .lFoot => []
  | .rHip => [.rKnee]
  | .rKnee => [.rFoot]
  | .rFoot => []

/-- The `parent` entries of the `hierarchy` table (root's parent is
`null` in the source; we map root to itself and never use it). -/
def parentOf : Joint → Joint
  | .root => .root
  | .torso => .root
  | .waist => .root
  | .head => .torso
  | .lShoulder => .torso
  | .lElbow => .lShoulder
  | .lHand => .lElbow
  | .rShoulder => .torso
  | .rElbow => .rShoulder
  | .rHand => .rElbow
  | .lHip => .waist
  | .lKnee => .lHip
  | .lFoot => .lKnee
  | .rHip => .waist
  | .rKnee => .rHip
  | .rFoot => .rKnee

/-- `BASE_ANGLES` from `kinematics.ts` (the `|| 0` default makes the
table total; `root` is absent from the source table, hence `0`). -/
def BASE_ANGLES : Joint → ℝ
  | .torso => -(π / 2)
  | .waist => π / 2
  | .lShoulder => -(π / 2)
  | .rShoulder => π / 2
  | _ => 0

/-- Reading a local angle of a `PoseData` by joint key: the source
accesses `pose[part]` or `pose[side][joint]` after splitting the key at
the dot (`getPrevPoseAngle` in `physics.ts` and the dynamic writes in
`extractPoseFromPhysicsBody`).  `root` has no angle entry (`?? 0`). -/
def getPoseAngle (p : PoseData) : Joint → ℝ
  | .root => 0
  | .torso => p.torso
  | .waist => p.waist
  | .head => p.head
  | .lShoulder => p.left.shoulder
  | .lElbow => p.left.elbow
  | .lHand => p.left.hand
  | .lHip => p.left.hip
  | .lKnee => p.left.knee
  | .lFoot => p.left.foot
  | .rShoulder => p.right.shoulder
  | .rElbow => p.right.elbow
  | .rHand => p.right.hand
  | .rHip => p.right.hip
  | .rKnee => p.right.knee
  | .rFoot => p.right.foot

/-- Writing a local angle of a `PoseData` by joint key (the dynamic
`(newPose)[parts[0]][parts[1]] = v` / `(newPose)[key] = v` writes in
`extractPoseFromPhysicsBody`).  A write to `root` never occurs in the
source (root is not a child of any node) and is a no-op here. -/
def setPoseAngle (j : Joint) (v : ℝ) (p : PoseData) : PoseData :=
  match j with
  | .root => p
  | .torso => { p with torso := v }
  | .waist => { p with waist := v }
  | .head => { p with head := v }
  | .lShoulder => { p with left := { p.left with shoulder := v } }
  | .lElbow => { p with left := { p.left with elbow := v } }
  | .lHand => { p with left := { p.left with hand := v } }
  | .lHip => { p with left := { p.left with hip := v } }
  | .lKnee => { p with left := { p.left with knee := v } }
  | .lFoot => { p with left := { p.left with foot := v } }
  | .rShoulder => { p with right := { p.right with shoulder := v } }
  | .rElbow => { p with right := { p.right with elbow := v } }
  | .rHand => { p with right := { p.right with hand := v } }
  | .rHip => { p with right := { p.right with hip := v } }
  | .rKnee => { p with right := { p.right with knee := v } }
  | .rFoot => { p with right := { p.right with foot := v } }

/-! ## Constants of `kinematics.ts` -/

def W : ℝ := 800
def H : ℝ := 800
def HEAD_SIZE_UNIT : ℝ := 105
def TRUNK_HEIGHT : ℝ := HEAD_SIZE_UNIT * 3
def LIMB_LENGTH : ℝ := HEAD_SIZE_UNIT * 2
def HEAD_SIZE : ℝ := HEAD_SIZE_UNIT * 0.8
def TORSO_HEIGHT : ℝ := 150
def WAIST_HEIGHT : ℝ := 75
def L_ARM : ℝ := LIMB_LENGTH / 2
def L_FOREARM : ℝ := LIMB_LENGTH / 2
def L_HAND : ℝ := HEAD_SIZE_UNIT * 0.4
def L_THIGH : ℝ := 125
def L_SHIN : ℝ := 125
def L_FOOT : ℝ := HEAD_SIZE_UNIT * 0.4

/-- `getEndPoint` from `kinematics.ts`:
`(start.x + cos(angle)·length, start.y + sin(angle)·length)`. -/
def getEndPoint (start : Point) (angle len : ℝ) : Point :=
  ⟨start.x + Real.cos angle * len, start.y + Real.sin angle * len⟩

/-! ## Forward kinematics: `computeSkeleton`

The source returns `{joints, bones}`; each bone also records the world
angle it was drawn with.  The embedding returns, for every joint key,
the stored joint position (`jointCache`) and the entry of the
`worldAngles` dictionary (initialised with `root ↦ 0`); the per-bone
visual widths play no role in any claim and are omitted. -/

structure Skeleton where
  joints : Joint → Point
  worldAngles : Joint → ℝ

def computeSkeleton (pose : PoseData) : Skeleton :=
  let rootPos : Point := ⟨W / 2 + pose.offset.x, H / 2 + pose.offset.y⟩
  -- Tier 1: torso and waist bones out of the root
  let waTorso := BASE_ANGLES .torso + pose.torso
  let neckPos := getEndPoint rootPos waTorso TORSO_HEIGHT
  let waWaist := BASE_ANGLES .waist + pose.waist
  let hipBasePos := getEndPoint rootPos waWaist WAIST_HEIGHT
  -- Tier 2: head
  let waHead := waTorso + BASE_ANGLES .head + pose.head
  let headPhysicsCenter := getEndPoint neckPos waHead (HEAD_SIZE / 2.5)
  -- Tier 2: arms; the source loops over side ∈ {left, right} with
  -- shoulderXOffset = +48 for right, -48 for left
  let perpTorsoAngle := waTorso + π / 2
  let lShoulderPos := getEndPoint neckPos perpTorsoAngle (-48)
  let waLShoulder := waTorso + BASE_ANGLES .lShoulder + pose.left.shoulder
  let lElbowPos := getEndPoint lShoulderPos waLShoulder L_ARM
  let waLElbow := waLShoulder + BASE_ANGLES .lElbow + pose.left.elbow
  let lHandPos := getEndPoint lElbowPos waLElbow L_FOREARM
  let waLHand := waLElbow + BASE_ANGLES .lHand + pose.left.hand
  let rShoulderPos := getEndPoint neckPos perpTorsoAngle 48
  let waRShoulder := waTorso + BASE_ANGLES .rShoulder + pose.right.shoulder
  let rElbowPos := getEndPoint rShoulderPos waRShoulder L_ARM
  let waRElbow := waRShoulder + BASE_ANGLES .rElbow + pose.right.elbow
  let rHandPos := getEndPoint rElbowPos waRElbow L_FOREARM
  let waRHand := waRElbow + BASE_ANGLES .rHand + pose.right.hand
  -- Tier 3: legs; hipXOffset = +29 for right, -29 for left
  let perpWaistAngle := waWaist - π / 2
  let lHipPos := getEndPoint hipBasePos perpWaistAngle (-29)
  let waLHip := waWaist + BASE_ANGLES .lHip + pose.left.hip
  let lKneePos := getEndPoint lHipPos waLHip L_THIGH
  let waLKnee := waLHip + BASE_ANGLES .lKnee + pose.left.knee
  let lFootPos := getEndPoint lKneePos waLKnee L_SHIN
  let waLFoot := waLKnee + BASE_ANGLES .lFoot + pose.left.foot
  let rHipPos := getEndPoint hipBasePos perpWaistAngle 29
  let waRHip := waWaist + BASE_ANGLES .rHip + pose.right.hip
  let rKneePos := getEndPoint rHipPos waRHip L_THIGH
  let waRKnee := waRHip + BASE_ANGLES .rKnee + pose.right.knee
  let rFootPos := getEndPoint rKneePos waRKnee L_SHIN
  let waRFoot := waRKnee + BASE_ANGLES .rFoot + pose.right.foot
  { joints := fun j => match j with
      | .root => rootPos
      | .torso => neckPos
      | .waist => hipBasePos
      | .head => headPhysicsCenter
      | .lShoulder => lShoulderPos
      | .lElbow => lElbowPos
      | .lHand => lHandPos
      | .rShoulder => rShoulderPos
      | .rElbow => rElbowPos
      | .rHand => rHandPos
      | .lHip => lHipPos
      | .lKnee => lKneePos
      | .lFoot => lFootPos
      | .rHip => rHipPos
      | .rKnee => rKneePos
      | .rFoot => rFootPos
    worldAngles := fun j => match j with
      | .root => 0
      | .torso => waTorso
      | .waist => waWaist
      | .head => waHead
      | .lShoulder => waLShoulder
      | .lElbow => waLElbow
      | .lHand => waLHand
      | .rShoulder => waRShoulder
      | .rElbow => waRElbow
      | .rHand => waRHand
      | .lHip => waLHip
      | .lKnee => waLKnee
      | .lFoot => waLFoot
      | .rHip => waRHip
      | .rKnee => waRKnee
      | .rFoot => waRFoot }

/-! ## Pose interpolation: `interpolation.ts` -/

/-- `lerp` from `interpolation.ts`: `a * (1 - t) + b * t`. -/
def lerp (a b t : ℝ) : ℝ := a * (1 - t) + b * t

/-- The delta computation inside `lerpAngle`: `delta = b - a`, then one
full turn is subtracted if `delta > π` and added if `delta < -π`. -/
def lerpAngleDelta (a b : ℝ) : ℝ :=
  let delta := b - a
  if delta > π then delta - 2 * π
  else if delta < -π then delta + 2 * π
  else delta

/-- `lerpAngle` from `interpolation.ts`. -/
def lerpAngle (a b t : ℝ) : ℝ := a + lerpAngleDelta a b * t

/-- `interpolatePoses` from `interpolation.ts`.  The source recurses
over the object structure carrying the property path, applying `lerp`
when the path starts with `offset.` and `lerpAngle` to every other
number; on the fixed `PoseData` shape this is its action. -/
def interpolatePoses (poseA poseB : PoseData) (t : ℝ) : PoseData :=
  { offset := ⟨lerp poseA.offset.x poseB.offset.x t,
               lerp poseA.offset.y poseB.offset.y t⟩
    torso := lerpAngle poseA.torso poseB.torso t
    waist := lerpAngle poseA.waist poseB.waist t
    head := lerpAngle poseA.head poseB.head t
    left := { shoulder := lerpAngle poseA.left.shoulder poseB.left.shoulder t
              elbow := lerpAngle poseA.left.elbow poseB.left.elbow t
              hand := lerpAngle poseA.left.hand poseB.left.hand t
              hip := lerpAngle poseA.left.hip poseB.left.hip t
              knee := lerpAngle poseA.left.knee poseB.left.knee t
              foot := lerpAngle poseA.left.foot poseB.left.foot t }
    right := { shoulder := lerpAngle poseA.right.shoulder poseB.right.shoulder t
               elbow := lerpAngle poseA.right.elbow poseB.right.elbow t
               hand := lerpAngle poseA.right.hand poseB.right.hand t
               hip := lerpAngle poseA.right.hip poseB.right.hip t
               knee := lerpAngle poseA.right.knee poseB.right.knee t
               foot := lerpAngle poseA.right.foot poseB.right.foot t } }

/-! ## Two-bone IK: `solveIK` from `kinematics.ts` -/

/-- `solveIK`.  After the too-close rescale the source recomputes
`dx`, `dy` from the scaled target and sets `dist = minReach`; the
triple `(dx2, dy2, dist2)` below holds the post-rescale values. -/
def solveIK (rootPos targetPos : Point) (l1 l2 : ℝ) : Option (ℝ × ℝ) :=
  let dx := targetPos.x - rootPos.x
  let dy := targetPos.y - rootPos.y
  let dist := hypot dx dy
  if dist < 0.1 then none
  else
    let maxReach := l1 + l2
    if dist > maxReach then some (atan2 dy dx, 0)
    else
      let minReach := |l1 - l2|
      let dx2 := if dist < minReach then dx * (minReach / dist) else dx
      let dy2 := if dist < minReach then dy * (minReach / dist) else dy
      let dist2 := if dist < minReach then minReach else dist
      let distSq := dist2 * dist2
      let cosAngle2 := (l1 * l1 + l2 * l2 - distSq) / (2 * l1 * l2)
      let angle2raw := Real.arccos (max (-1) (min 1 cosAngle2))
      let cosAngle1part := (distSq + l1 * l1 - l2 * l2) / (2 * dist2 * l1)
      let angle1part := Real.arccos (max (-1) (min 1 cosAngle1part))
      let targetAngle := atan2 dy2 dx2
      some (targetAngle - angle1part, π - angle2raw)

/-- The target point after the too-close rescale of `solveIK`:
`rootPos + (targetPos - rootPos) * (|l1 - l2| / dist)`. -/
def rescaleTarget (rootPos targetPos : Point) (l1 l2 : ℝ) : Point :=
  let dx := targetPos.x - rootPos.x
  let dy := targetPos.y - rootPos.y
  let dist := hypot dx dy
  let scale := |l1 - l2| / dist
  ⟨rootPos.x + dx * scale, rootPos.y + dy * scale⟩

/-! ## Ragdoll physics: `physics.ts` -/

def FRICTION : ℝ := 0.96
def SOLVER_ITERATIONS : ℕ := 15
def GRAVITY : Point := ⟨0, 2500⟩
def STIFFNESS : ℝ := 0.75

/-- `shortestAngleDiff` from `physics.ts`: the difference `to - from`,
corrected by one full turn when it leaves `[-π, π]`. -/
def shortestAngleDiff (a b : ℝ) : ℝ :=
  let diff := b - a
  if diff > π then diff - 2 * π
  else if diff < -π then diff + 2 * π
  else diff

/-- `PhysicsParticle`: id, position, previous position, mass. -/
structure PhysicsParticle where
  id : Joint
  pos : Point
  prevPos : Point
  mass : ℝ

/-- `PhysicsConstraint`: particle index pair plus rest length. -/
structure PhysicsConstraint where
  particleAIndex : ℕ
  particleBIndex : ℕ
  restLength : ℝ

/-- `PhysicsBody`: particle list, constraint list, and the
joint-key-to-index map (`particleMap`). -/
structure PhysicsBody where
  particles : List PhysicsParticle
  constraints : List PhysicsConstraint
  particleMap : Joint → Option ℕ

/-- Insertion order of `skeleton.joints` (and hence of the particle
array built by `createPhysicsBodyFromPose`): the order in which
`computeSkeleton` stores joints into `jointCache`. -/
def jointOrder : List Joint :=
  [.root, .torso, .waist, .head,
   .lShoulder, .lElbow, .lHand,
   .rShoulder, .rElbow, .rHand,
   .lHip, .lKnee, .lFoot,
   .rHip, .rKnee, .rFoot]

/-- The mass tier assigned per joint key in `createPhysicsBodyFromPose`:
3.0 for root/torso and keys containing `hip` or `shoulder`, 1.5 for
waist/head (`neck` never occurs as a joint key), 0.5 otherwise. -/
def massOf (j : Joint) : ℝ :=
  match j with
  | .root | .torso | .lHip | .rHip | .lShoulder | .rShoulder => 3.0
  | .waist | .head => 1.5
  | _ => 0.5

/-- Iteration order of `Object.keys(hierarchy)` in the constraint build
of `createPhysicsBodyFromPose`: the insertion order of the `hierarchy`
object literal in `kinematics.ts`. -/
def hierarchyOrder : List Joint :=
  [.root, .torso, .waist, .head,
   .lShoulder, .lElbow, .lHand,
   .rShoulder, .rElbow, .rHand,
   .lHip, .lKnee, .lFoot,
   .rHip, .rKnee, .rFoot]

/-- `createPhysicsBodyFromPose` from `physics.ts`: one particle per
skeleton joint (position = previous position = the joint's skeleton
position), one distance constraint per hierarchy edge whose current
length exceeds 0.1. -/
def createPhysicsBodyFromPose (pose : PoseData) : PhysicsBody :=
  let skeleton := computeSkeleton pose
  let particles := jointOrder.map (fun j =>
    ({ id := j, pos := skeleton.joints j, prevPos := skeleton.joints j,
       mass := massOf j } : PhysicsParticle))
  let particleMap : Joint → Option ℕ := fun j => jointOrder.findIdx? (· = j)
  let constraints := (hierarchyOrder.map (fun parentKey =>
    (childrenOf parentKey).filterMap (fun childKey =>
      match particleMap parentKey, particleMap childKey with
      | some parentIndex, some childIndex =>
        let pp := skeleton.joints parentKey
        let cp := skeleton.joints childKey
        let restLength := hypot (cp.x - pp.x) (cp.y - pp.y)
        if restLength > 0.1 then
          some ({ particleAIndex := parentIndex, particleBIndex := childIndex,
                  restLength := restLength } : PhysicsConstraint)
        else none
      | _, _ => none))).flatten
  { particles := particles, constraints := constraints, particleMap := particleMap }

/-- Phase 1 of `updatePhysicsBody` for a single particle: Verlet
integration with friction and gravity (particles of mass 0 are
skipped). -/
def integrateParticle (dt : ℝ) (p : PhysicsParticle) : PhysicsParticle :=
  if p.mass = 0 then p
  else
    let vx := (p.pos.x - p.prevPos.x) * FRICTION
    let vy := (p.pos.y - p.prevPos.y) * FRICTION
    { p with
      prevPos := p.pos
      pos := ⟨p.pos.x + vx + GRAVITY.x * (dt * dt),
              p.pos.y + vy + GRAVITY.y * (dt * dt)⟩ }

/-- One distance-constraint relaxation (the body of the `forEach` in
phase 2 of `updatePhysicsBody`), applied to the current particle
array.  Skips when the current separation is below 0.001 or the pair's
total mass is 0; otherwise each particle receives the correction
scaled by the *other* particle's mass share (share 1 when the other
particle's mass is not positive). -/
def applyConstraint (ps : List PhysicsParticle) (c : PhysicsConstraint) :
    List PhysicsParticle :=
  match ps.get? c.particleAIndex, ps.get? c.particleBIndex with
  | some pA, some pB =>
    let deltaX := pB.pos.x - pA.pos.x
    let deltaY := pB.pos.y - pA.pos.y
    let dist := hypot deltaX deltaY
    if dist < 0.001 then ps
    else
      let diff := (dist - c.restLength) / dist
      let totalMass := pA.mass + pB.mass
      if totalMass = 0 then ps
      else
        let pAShare := if pA.mass > 0 then pA.mass / totalMass else 1
        let pBShare := if pB.mass > 0 then pB.mass / totalMass else 1
        let correctionX := deltaX * diff * STIFFNESS
        let correctionY := deltaY * diff * STIFFNESS
        let pA2 := { pA with pos := ⟨pA.pos.x + correctionX * pBShare,
                                     pA.pos.y + correctionY * pBShare⟩ }
        let pB2 := { pB with pos := ⟨pB.pos.x - correctionX * pAShare,
                                     pB.pos.y - correctionY * pAShare⟩ }
        (ps.set c.particleAIndex pA2).set c.particleBIndex pB2
  | _, _ => ps

/-- One pass of phase 2 over the whole constraint list. -/
def constraintPass (cs : List PhysicsConstraint) (ps : List PhysicsParticle) :
    List PhysicsParticle :=
  cs.foldl applyConstraint ps

def PARTICLE_RADIUS : ℝ := 5

/-- Phase 3 of `updatePhysicsBody` for a single particle: collision
with the stage rectangle.  `vy` is the vertical velocity read before
any correction; the floor clamp zeroes vertical velocity and transfers
`0.15·vy` into horizontal velocity via `prevPos.x`; ceiling and side
walls only clamp and zero the corresponding component. -/
def collideParticle (p : PhysicsParticle) : PhysicsParticle :=
  let boundsTop := PARTICLE_RADIUS
  let boundsBottom := H - PARTICLE_RADIUS
  let boundsLeft := PARTICLE_RADIUS
  let boundsRight := W - PARTICLE_RADIUS
  let impactFalloutFactor : ℝ := 0.15
  let vy := p.pos.y - p.prevPos.y
  -- Y-axis landing (floor)
  let p1 :=
    if p.pos.y > boundsBottom then
      { p with pos := ⟨p.pos.x, boundsBottom⟩,
               prevPos := ⟨p.prevPos.x - vy * impactFalloutFactor, boundsBottom⟩ }
    else p
  -- Y-axis ceiling
  let p2 :=
    if p1.pos.y < boundsTop then
      { p1 with pos := ⟨p1.pos.x, boundsTop⟩,
                prevPos := ⟨p1.prevPos.x, boundsTop⟩ }
    else p1
  -- X-axis containment (side walls)
  let p3 :=
    if p2.pos.x > boundsRight then
      { p2 with pos := ⟨boundsRight, p2.pos.y⟩,
                prevPos := ⟨boundsRight, p2.prevPos.y⟩ }
    else p2
  if p3.pos.x < boundsLeft then
    { p3 with pos := ⟨boundsLeft, p3.pos.y⟩,
              prevPos := ⟨boundsLeft, p3.prevPos.y⟩ }
  else p3

/-- The particle array after phases 1 and 2 of `updatePhysicsBody`
(integration, then `SOLVER_ITERATIONS` passes over the constraints). -/
def particlesAfterConstraints (body : PhysicsBody) (dt : ℝ) :
    List PhysicsParticle :=
  (constraintPass body.constraints)^[SOLVER_ITERATIONS]
    (body.particles.map (integrateParticle dt))

/-- `updatePhysicsBody` from `physics.ts` (the source mutates the body
in place; the embedding returns the updated body). -/
def updatePhysicsBody (body : PhysicsBody) (dt : ℝ) : PhysicsBody :=
  { body with
    particles := (particlesAfterConstraints body dt).map collideParticle }

/-! ## Pose extraction: `extractPoseFromPhysicsBody` -/

/-- `getParticlePos` from `extractPoseFromPhysicsBody`. -/
def getParticlePos (body : PhysicsBody) (j : Joint) : Option Point :=
  (body.particleMap j).bind (fun i => (body.particles.get? i).map (·.pos))

/-- The body of the `forEach` inside the recursive `calculateAngles`
of `extractPoseFromPhysicsBody`, with the recursive call abstracted as
`recFn`: when both the parent's and the child's particles exist, the
child's raw local angle is read off the particle segment, reconciled
against the previous pose's angle by `shortestAngleDiff`, written into
the accumulated pose, and the recursion descends with the
reconstructed child world angle; otherwise the child is skipped. -/
def calcStep (body : PhysicsBody) (previousPose : PoseData)
    (recFn : Joint → ℝ → PoseData → PoseData)
    (parentKey : Joint) (parentWorldAngle : ℝ)
    (acc2 : PoseData) (childKey : Joint) : PoseData :=
  match getParticlePos body parentKey, getParticlePos body childKey with
  | some parentPos, some childPos =>
    let dx := childPos.x - parentPos.x
    let dy := childPos.y - parentPos.y
    let childWorldAngle := atan2 dy dx
    let rawLocalAngle := childWorldAngle - parentWorldAngle - BASE_ANGLES childKey
    let previousLocalAngle := getPoseAngle previousPose childKey
    let finalLocalAngle :=
      previousLocalAngle + shortestAngleDiff previousLocalAngle rawLocalAngle
    let finalChildWorldAngle :=
      parentWorldAngle + BASE_ANGLES childKey + finalLocalAngle
    recFn childKey finalChildWorldAngle (setPoseAngle childKey finalLocalAngle acc2)
  | _, _ => acc2

/-- The recursive `calculateAngles` of `extractPoseFromPhysicsBody`.
`fuel` bounds the recursion depth; the fixed hierarchy has depth 3
below torso/waist, so the fuel of 16 used by `extractPoseFromPhysicsBody`
never runs out.  The source also stores each `finalChildWorldAngle`
into a local `worldAngles` dictionary that is never read; that
write-only state is dropped. -/
def calculateAngles (body : PhysicsBody) (previousPose : PoseData) :
    ℕ → Joint → ℝ → PoseData → PoseData
  | 0, _, _, acc => acc
  | Nat.succ fuel, parentKey, parentWorldAngle, acc =>
    (childrenOf parentKey).foldl
      (calcStep body previousPose
        (fun childKey childWorldAngle acc2 =>
          calculateAngles body previousPose fuel childKey childWorldAngle acc2)
        parentKey parentWorldAngle) acc

lemma calculateAngles_zero (body : PhysicsBody) (previousPose : PoseData)
    (parentKey : Joint) (parentWorldAngle : ℝ) (acc : PoseData) :
    calculateAngles body previousPose 0 parentKey parentWorldAngle acc = acc :=
  rfl

lemma calculateAngles_succ (body : PhysicsBody) (previousPose : PoseData)
    (fuel : ℕ) (parentKey : Joint) (parentWorldAngle : ℝ) (acc : PoseData) :
    calculateAngles body previousPose (fuel + 1) parentKey parentWorldAngle acc =
      (childrenOf parentKey).foldl
        (calcStep body previousPose
          (fun childKey childWorldAngle acc2 =>
            calculateAngles body previousPose fuel childKey childWorldAngle acc2)
          parentKey parentWorldAngle) acc :=
  rfl

/-- `extractPoseFromPhysicsBody` from `physics.ts`. -/
def extractPoseFromPhysicsBody (body : PhysicsBody) (previousPose : PoseData) :
    PoseData :=
  match getParticlePos body .root, getParticlePos body .torso,
        getParticlePos body .waist with
  | some rootPos, some torsoPos, some waistPos =>
    let torsoWorldAngle := atan2 (torsoPos.y - rootPos.y) (torsoPos.x - rootPos.x)
    let waistWorldAngle := atan2 (waistPos.y - rootPos.y) (waistPos.x - rootPos.x)
    let rawTorsoAngle := torsoWorldAngle - BASE_ANGLES .torso
    let newTorso := previousPose.torso +
      shortestAngleDiff previousPose.torso rawTorsoAngle
    let rawWaistAngle := waistWorldAngle - BASE_ANGLES .waist
    let newWaist := previousPose.waist +
      shortestAngleDiff previousPose.waist rawWaistAngle
    let pose1 : PoseData :=
      { previousPose with
        torso := newTorso
        waist := newWaist
        offset := ⟨rootPos.x - W / 2, rootPos.y - H / 2⟩ }
    let finalTorsoWorldAngle := BASE_ANGLES .torso + newTorso
    let finalWaistWorldAngle := BASE_ANGLES .waist + newWaist
    let pose2 := calculateAngles body previousPose 16 .torso finalTorsoWorldAngle pose1
    calculateAngles body previousPose 16 .waist finalWaistWorldAngle pose2
  | _, _, _ => previousPose

/-! ## Helper lemmas: `atan2`, `hypot`, and the one-turn wrap -/

lemma hypot_of_nonneg_zero {a : ℝ} (ha : 0 ≤ a) : hypot a 0 = a := by
  unfold hypot
  rw [mul_zero, add_zero, Real.sqrt_mul_self ha]

lemma hypot_smul {s dx dy : ℝ} (hs : 0 ≤ s) :
    hypot (dx * s) (dy * s) = hypot dx dy * s := by
  unfold hypot
  have h1 : dx * s * (dx * s) + dy * s * (dy * s)
      = (dx * dx + dy * dy) * (s * s) := by ring
  rw [h1, Real.sqrt_mul (by nlinarith [mul_self_nonneg dx, mul_self_nonneg dy]),
    Real.sqrt_mul_self hs]

lemma hypot_nonneg (dx dy : ℝ) : 0 ≤ hypot dx dy := Real.sqrt_nonneg _

lemma atan2_zero_of_pos {x : ℝ} (hx : 0 < x) : atan2 0 x = 0 :=
  Complex.arg_eq_zero_iff.2 ⟨le_of_lt hx, rfl⟩

lemma atan2_zero_of_neg {x : ℝ} (hx : x < 0) : atan2 0 x = π :=
  Complex.arg_eq_pi_iff.2 ⟨hx, rfl⟩

lemma atan2_pos_zero {y : ℝ} (hy : 0 < y) : atan2 y 0 = π / 2 :=
  Complex.arg_eq_pi_div_two_iff.2 ⟨rfl, hy⟩

lemma atan2_neg_zero {y : ℝ} (hy : y < 0) : atan2 y 0 = -(π / 2) :=
  Complex.arg_eq_neg_pi_div_two_iff.2 ⟨rfl, hy⟩

/-- `atan2` recovers the angle of a polar vector whose angle is in the
principal range `(-π, π]`. -/
lemma atan2_polar {r θ : ℝ} (hr : 0 < r) (hθ : θ ∈ Set.Ioc (-π) π) :
    atan2 (r * Real.sin θ) (r * Real.cos θ) = θ := by
  unfold atan2
  have h1 : Complex.mk (r * Real.cos θ) (r * Real.sin θ)
      = (r : ℝ) * (Complex.cos θ + Complex.sin θ * Complex.I) := by
    apply Complex.ext <;>
      simp [Complex.cos_ofReal_re, Complex.sin_ofReal_re, Complex.cos_ofReal_im,
        Complex.sin_ofReal_im]
  rw [h1, Complex.arg_real_mul _ hr, Complex.arg_cos_add_sin_mul_I hθ]

lemma shortestAngleDiff_of_abs_le {a b : ℝ} (h : |b - a| ≤ π) :
    shortestAngleDiff a b = b - a := by
  simp only [shortestAngleDiff]
  rw [abs_le] at h
  rw [if_neg (by linarith [h.2]), if_neg (by linarith [h.1])]

lemma shortestAngleDiff_self (a : ℝ) : shortestAngleDiff a a = 0 := by
  have h := shortestAngleDiff_of_abs_le (a := a) (b := a)
    (by simp [Real.pi_nonneg])
  simpa using h

lemma shortestAngleDiff_add_two_pi (a : ℝ) :
    shortestAngleDiff a (a + 2 * π) = 0 := by
  simp only [shortestAngleDiff]
  have hpi := Real.pi_pos
  rw [if_pos (by linarith)]
  ring

lemma shortestAngleDiff_sub_two_pi (a : ℝ) :
    shortestAngleDiff a (a - 2 * π) = 0 := by
  simp only [shortestAngleDiff]
  have hpi := Real.pi_pos
  rw [if_neg (by linarith), if_pos (by linarith)]
  ring

lemma abs_shortestAngleDiff_le (a b : ℝ) :
    |shortestAngleDiff a b| ≤ |b - a| := by
  simp only [shortestAngleDiff]
  have hpi := Real.pi_pos
  split_ifs with h1 h2
  · rw [abs_of_pos (show (0:ℝ) < b - a by linarith), abs_le]
    constructor <;> linarith
  · rw [abs_of_neg (show b - a < (0:ℝ) by linarith), abs_le]
    constructor <;> linarith
  · exact le_refl _

lemma abs_shortestAngleDiff_le_pi {a b : ℝ} (h : |b - a| ≤ 3 * π) :
    |shortestAngleDiff a b| ≤ π := by
  simp only [shortestAngleDiff]
  have hpi := Real.pi_pos
  rw [abs_le] at h
  split_ifs with h1 h2
  · rw [abs_le]
    constructor <;> linarith [h.2]
  · rw [abs_le]
    constructor <;> linarith [h.1]
  · rw [abs_le]
    constructor <;> linarith

lemma lerpAngleDelta_of_abs_le {a b : ℝ} (h : |b - a| ≤ π) :
    lerpAngleDelta a b = b - a := by
  simp only [lerpAngleDelta]
  rw [abs_le] at h
  rw [if_neg (by linarith [h.2]), if_neg (by linarith [h.1])]

lemma lerpAngleDelta_mem {a b : ℝ} (h : |b - a| ≤ 3 * π) :
    -π ≤ lerpAngleDelta a b ∧ lerpAngleDelta a b ≤ π := by
  simp only [lerpAngleDelta]
  have hpi := Real.pi_pos
  rw [abs_le] at h
  split_ifs with h1 h2
  · constructor <;> linarith [h.2]
  · constructor <;> linarith [h.1]
  · constructor <;> linarith

/-! ## Claim C4 — pose interpolation -/

/-- The all-zero pose (offset 0, all local angles 0). -/
def zeroPose : PoseData :=
  { offset := ⟨0, 0⟩, torso := 0, waist := 0, head := 0
    left := ⟨0, 0, 0, 0, 0, 0⟩, right := ⟨0, 0, 0, 0, 0, 0⟩ }

/-- C4 counterexample: interpolating the torso angle from `0` to `-π`
at `t = 1/2`.  The difference `b - a = -π` is left uncorrected by the
code (the wrap only fires strictly outside `[-π, π]`), so the code
returns `-π/2`; no delta in the claimed wrap range `(-π, π]` congruent
to `-π` modulo one turn can reproduce that value (the only candidate is
`+π`, giving `+π/2`). -/
theorem C4_counterexample :
    (interpolatePoses zeroPose
        { zeroPose with torso := -π } (1/2)).torso = -(π/2) ∧
    ¬ ∃ delta : ℝ, delta ∈ Set.Ioc (-π) π ∧
      (∃ k : ℤ, delta = ({ zeroPose with torso := -π } : PoseData).torso
          - zeroPose.torso + 2 * π * k) ∧
      (interpolatePoses zeroPose { zeroPose with torso := -π } (1/2)).torso
        = zeroPose.torso + delta * (1/2) := by
  have hpi := Real.pi_pos
  have hval : (interpolatePoses zeroPose
      { zeroPose with torso := -π } (1/2)).torso = -(π/2) := by
    simp only [interpolatePoses, lerpAngle, lerpAngleDelta, zeroPose]
    rw [if_neg (by linarith), if_neg (by linarith)]
    ring
  refine ⟨hval, ?_⟩
  rintro ⟨delta, hmem, ⟨k, hk⟩, heq⟩
  rw [hval] at heq
  simp only [zeroPose] at heq hk
  have hdelta : delta = -π := by linarith
  rw [hdelta] at hmem
  exact absurd hmem.1 (lt_irrefl _)

/-- C4 (amended): offset fields interpolate linearly; every other
scalar field interpolates by `a + delta·t` where `delta` is `b - a`
corrected by one full turn when it leaves `[-π, π]`; the corrected
delta lies in `[-π, π]` (not `(-π, π]`: a difference of exactly `-π`
is kept as `-π`) whenever `|b - a| ≤ 3π`; interpolating a field from
`-3` to `3` at `t = 1/2` yields exactly `-π`, and `offset.x` from `0`
to `100` at `t = 1/2` yields `50`. -/
theorem C4_theorem :
    (∀ (pA pB : PoseData) (t : ℝ),
      (interpolatePoses pA pB t).offset.x
          = pA.offset.x + (pB.offset.x - pA.offset.x) * t ∧
      (interpolatePoses pA pB t).offset.y
          = pA.offset.y + (pB.offset.y - pA.offset.y) * t ∧
      (interpolatePoses pA pB t).torso = pA.torso + lerpAngleDelta pA.torso pB.torso * t ∧
      (interpolatePoses pA pB t).waist = pA.waist + lerpAngleDelta pA.waist pB.waist * t ∧
      (interpolatePoses pA pB t).head = pA.head + lerpAngleDelta pA.head pB.head * t ∧
      (interpolatePoses pA pB t).left.shoulder
          = pA.left.shoulder + lerpAngleDelta pA.left.shoulder pB.left.shoulder * t ∧
      (interpolatePoses pA pB t).left.elbow
          = pA.left.elbow + lerpAngleDelta pA.left.elbow pB.left.elbow * t ∧
      (interpolatePoses pA pB t).left.hand
          = pA.left.hand + lerpAngleDelta pA.left.hand pB.left.hand * t ∧
      (interpolatePoses pA pB t).left.hip
          = pA.left.hip + lerpAngleDelta pA.left.hip pB.left.hip * t ∧
      (interpolatePoses pA pB t).left.knee
          = pA.left.knee + lerpAngleDelta pA.left.knee pB.left.knee * t ∧
      (interpolatePoses pA pB t).left.foot
          = pA.left.foot + lerpAngleDelta pA.left.foot pB.left.foot * t ∧
      (interpolatePoses pA pB t).right.shoulder
          = pA.right.shoulder + lerpAngleDelta pA.right.shoulder pB.right.shoulder * t ∧
      (interpolatePoses pA pB t).right.elbow
          = pA.right.elbow + lerpAngleDelta pA.right.elbow pB.right.elbow * t ∧
      (interpolatePoses pA pB t).right.hand
          = pA.right.hand + lerpAngleDelta pA.right.hand pB.right.hand * t ∧
      (interpolatePoses pA pB t).right.hip
          = pA.right.hip + lerpAngleDelta pA.right.hip pB.right.hip * t ∧
      (interpolatePoses pA pB t).right.knee
          = pA.right.knee + lerpAngleDelta pA.right.knee pB.right.knee * t ∧
      (interpolatePoses pA pB t).right.foot
          = pA.right.foot + lerpAngleDelta pA.right.foot pB.right.foot * t) ∧
    (∀ a b : ℝ, lerpAngleDelta a b
        = if b - a > π then b - a - 2 * π
          else if b - a < -π then b - a + 2 * π else b - a) ∧
    (∀ a b : ℝ, |b - a| ≤ 3 * π →
        -π ≤ lerpAngleDelta a b ∧ lerpAngleDelta a b ≤ π) ∧
    (interpolatePoses { zeroPose with torso := -3 }
        { zeroPose with torso := 3 } (1/2)).torso = -π ∧
    (interpolatePoses zeroPose
        { zeroPose with offset := ⟨100, 0⟩ } (1/2)).offset.x = 50 := by
  refine ⟨?_, ?_, ?_, ?_, ?_⟩
  · intro pA pB t
    refine ⟨?_, ?_, ?_, ?_, ?_, ?_, ?_, ?_, ?_, ?_, ?_, ?_, ?_, ?_, ?_, ?_, ?_⟩ <;>
      simp only [interpolatePoses, lerp, lerpAngle] <;> ring
  · intro a b
    simp only [lerpAngleDelta]
  · intro a b h
    exact lerpAngleDelta_mem h
  · have hpi := Real.pi_gt_three
    have hpi4 := Real.pi_lt_four
    simp only [interpolatePoses, lerpAngle, lerpAngleDelta, zeroPose]
    rw [if_pos (by norm_num; linarith)]
    ring
  · simp only [interpolatePoses, lerp, zeroPose]
    norm_num

/-- C4 witness: the wrap-range clause of `C4_theorem` at `a = 0`,
`b = 1`. -/
theorem C4_witness :
    -π ≤ lerpAngleDelta 0 1 ∧ lerpAngleDelta 0 1 ≤ π :=
  C4_theorem.2.2.1 0 1 (by
    have := Real.pi_gt_three
    rw [abs_le]
    constructor <;> nlinarith)

/-! ## Claims C5, C6, C7 — the two-bone IK solver -/

/-- C5: `solveIK` returns `none` exactly when the root-to-target
distance is below the epsilon `0.1`; for every other input it returns
an angle pair.  (Purity and determinism are inherent in the embedding:
`solveIK` is a function of its four arguments alone.) -/
theorem C5_theorem (rootPos targetPos : Point) (l1 l2 : ℝ) :
    solveIK rootPos targetPos l1 l2 = none ↔
      hypot (targetPos.x - rootPos.x) (targetPos.y - rootPos.y) < 0.1 := by
  simp only [solveIK]
  split_ifs with h1 h2
  · simp [h1]
  · simp [h1]
  · simp [h1]

/-- C6 counterexample: with `l1 = l2 = 0.01` and a target `0.05` along
`+x`, the distance `0.05` exceeds `l1 + l2 = 0.02`, yet `solveIK`
returns `none` (the `dist < 0.1` guard fires first), not the claimed
fully-extended pair. -/
theorem C6_counterexample :
    solveIK ⟨0, 0⟩ ⟨0.05, 0⟩ 0.01 0.01 = none ∧
    (0.01 + 0.01 : ℝ)
      < hypot ((0.05 : ℝ) - 0) ((0 : ℝ) - 0) := by
  have hd : hypot ((0.05 : ℝ) - 0) ((0 : ℝ) - 0) = 0.05 := by
    rw [show ((0.05 : ℝ) - 0) = 0.05 by norm_num,
      show ((0 : ℝ) - 0) = 0 by norm_num]
    exact hypot_of_nonneg_zero (by norm_num)
  constructor
  · simp only [solveIK]
    rw [if_pos (by rw [hd]; norm_num)]
  · rw [hd]; norm_num

/-- C6 (amended): for every input whose root-to-target distance is at
least the epsilon `0.1` and exceeds `l1 + l2`, the result is the
fully-extended pair `(atan2 of the root-to-target direction, 0)`; at
the exact reach boundary `l1 = l2 = 100`, target `200` along `+x`, the
law-of-cosines branch returns exactly `(0, 0)`. -/
theorem C6_theorem :
    (∀ (rootPos targetPos : Point) (l1 l2 : ℝ),
      0.1 ≤ hypot (targetPos.x - rootPos.x) (targetPos.y - rootPos.y) →
      l1 + l2 < hypot (targetPos.x - rootPos.x) (targetPos.y - rootPos.y) →
      solveIK rootPos targetPos l1 l2 =
        some (atan2 (targetPos.y - rootPos.y) (targetPos.x - rootPos.x), 0)) ∧
    solveIK ⟨0, 0⟩ ⟨200, 0⟩ 100 100 = some (0, 0) := by
  constructor
  · intro rootPos targetPos l1 l2 h1 h2
    simp only [solveIK]
    rw [if_neg (by linarith), if_pos h2]
  · have hd : hypot ((200 : ℝ) - 0) ((0 : ℝ) - 0) = 200 := by
      rw [show ((200 : ℝ) - 0) = 200 by norm_num,
        show ((0 : ℝ) - 0) = 0 by norm_num]
      exact hypot_of_nonneg_zero (by norm_num)
    simp only [solveIK, hd]
    rw [if_neg (by norm_num), if_neg (by norm_num), if_neg (by norm_num),
      if_neg (by norm_num), if_neg (by norm_num)]
    have hc2 : ((100:ℝ) * 100 + 100 * 100 - 200 * 200) / (2 * 100 * 100) = -1 := by
      norm_num
    have hc1 : ((200:ℝ) * 200 + 100 * 100 - 100 * 100) / (2 * 200 * 100) = 1 := by
      norm_num
    rw [hc2, hc1]
    rw [show max (-1 : ℝ) (min 1 (-1 : ℝ)) = -1 by norm_num,
      show max (-1 : ℝ) (min 1 (1 : ℝ)) = 1 by norm_num,
      Real.arccos_neg_one, Real.arccos_one,
      show ((0:ℝ) - 0) = 0 by norm_num, show ((200:ℝ) - 0) = 200 by norm_num,
      atan2_zero_of_pos (by norm_num : (0:ℝ) < 200)]
    norm_num

/-- C6 witness: the general unreachable branch of `C6_theorem` at
root `(0,0)`, target `(300,0)`, `l1 = l2 = 100`. -/
theorem C6_witness :
    solveIK ⟨0, 0⟩ ⟨300, 0⟩ 100 100 =
      some (atan2 (((0:ℝ)) - 0) (((300:ℝ)) - 0), 0) := by
  have hd : hypot ((300 : ℝ) - 0) ((0 : ℝ) - 0) = 300 := by
    rw [show ((300 : ℝ) - 0) = 300 by norm_num,
      show ((0 : ℝ) - 0) = 0 by norm_num]
    exact hypot_of_nonneg_zero (by norm_num)
  exact C6_theorem.1 ⟨0, 0⟩ ⟨300, 0⟩ 100 100 (by rw [hd]; norm_num)
    (by rw [hd]; norm_num)

/-- C7: for nonnegative segment lengths, an input whose distance is at
least the epsilon `0.1` but below `|l1 - l2|` is solved exactly as if
the target had been rescaled outward along the same direction to
distance `|l1 - l2|`; concretely, `l1 = 100`, `l2 = 50`, target at
distance `10` returns the pair `(0, π)`, and composing the two
segments with that pair places the end effector at distance `50`
(the effective reach `|l1 - l2|`) from the root. -/
theorem C7_theorem :
    (∀ (rootPos targetPos : Point) (l1 l2 : ℝ), 0 ≤ l1 → 0 ≤ l2 →
      0.1 ≤ hypot (targetPos.x - rootPos.x) (targetPos.y - rootPos.y) →
      hypot (targetPos.x - rootPos.x) (targetPos.y - rootPos.y) < |l1 - l2| →
      solveIK rootPos targetPos l1 l2 =
        solveIK rootPos (rescaleTarget rootPos targetPos l1 l2) l1 l2) ∧
    solveIK ⟨0, 0⟩ ⟨10, 0⟩ 100 50 = some (0, π) ∧
    hypot (100 * Real.cos 0 + 50 * Real.cos (0 + π))
      (100 * Real.sin 0 + 50 * Real.sin (0 + π)) = 50 := by
  refine ⟨?_, ?_, ?_⟩
  · intro rootPos targetPos l1 l2 hl1 hl2 heps hclose
    set dx := targetPos.x - rootPos.x with hdx
    set dy := targetPos.y - rootPos.y with hdy
    set dist := hypot dx dy with hdist
    have hdistpos : 0 < dist := lt_of_lt_of_le (by norm_num) heps
    have habs : |l1 - l2| ≤ l1 + l2 :=
      le_trans (abs_sub _ _) (by rw [abs_of_nonneg hl1, abs_of_nonneg hl2])
    have hscale : 0 ≤ |l1 - l2| / dist := by positivity
    -- distance to the rescaled target
    have hdx2 : (rescaleTarget rootPos targetPos l1 l2).x - rootPos.x
        = dx * (|l1 - l2| / dist) := by
      simp only [rescaleTarget, ← hdx, ← hdy, ← hdist]
      ring
    have hdy2 : (rescaleTarget rootPos targetPos l1 l2).y - rootPos.y
        = dy * (|l1 - l2| / dist) := by
      simp only [rescaleTarget, ← hdx, ← hdy, ← hdist]
      ring
    have hdist2 : hypot (dx * (|l1 - l2| / dist)) (dy * (|l1 - l2| / dist))
        = |l1 - l2| := by
      rw [hypot_smul hscale, ← hdist]
      field_simp
    have hmin01 : ¬ (|l1 - l2| < 0.1) := by push_neg; linarith
    have hminmax : ¬ (|l1 - l2| > l1 + l2) := by push_neg; exact habs
    have hminmin : ¬ (|l1 - l2| < |l1 - l2|) := lt_irrefl _
    have h01 : ¬ (dist < 0.1) := by push_neg; exact heps
    have hmax : ¬ (dist > l1 + l2) := by push_neg; linarith
    simp only [solveIK, hdx2, hdy2, ← hdx, ← hdy, ← hdist, hdist2,
      if_neg h01, if_neg hmax, if_pos hclose, if_neg hmin01, if_neg hminmax,
      if_neg hminmin]
  · have hd : hypot ((10 : ℝ) - 0) ((0 : ℝ) - 0) = 10 := by
      rw [show ((10 : ℝ) - 0) = 10 by norm_num,
        show ((0 : ℝ) - 0) = 0 by norm_num]
      exact hypot_of_nonneg_zero (by norm_num)
    simp only [solveIK, hd]
    rw [show |(100 : ℝ) - 50| = 50 by rw [abs_of_nonneg] <;> norm_num]
    rw [if_neg (by norm_num), if_neg (by norm_num),
      if_pos (by norm_num), if_pos (by norm_num), if_pos (by norm_num)]
    have hc2 : ((100:ℝ) * 100 + 50 * 50 - 50 * 50) / (2 * 100 * 50) = 1 := by
      norm_num
    have hc1 : ((50:ℝ) * 50 + 100 * 100 - 50 * 50) / (2 * 50 * 100) = 1 := by
      norm_num
    rw [hc2, hc1]
    rw [show max (-1 : ℝ) (min 1 (1 : ℝ)) = 1 by norm_num, Real.arccos_one]
    rw [show ((0:ℝ) - 0) * (50 / 10) = 0 by norm_num,
      show ((10:ℝ) - 0) * (50 / 10) = 50 by norm_num,
      atan2_zero_of_pos (by norm_num : (0:ℝ) < 50)]
    norm_num
  · rw [Real.cos_zero, Real.sin_zero, zero_add, Real.cos_pi, Real.sin_pi]
    rw [show (100 : ℝ) * 1 + 50 * -1 = 50 by norm_num,
      show (100 : ℝ) * 0 + 50 * 0 = 0 by norm_num]
    exact hypot_of_nonneg_zero (by norm_num)

/-- C7 witness: the general rescale clause of `C7_theorem` at root
`(0,0)`, target `(10,0)`, `l1 = 100`, `l2 = 50`. -/
theorem C7_witness :
    solveIK ⟨0, 0⟩ ⟨10, 0⟩ 100 50 =
      solveIK ⟨0, 0⟩ (rescaleTarget ⟨0, 0⟩ ⟨10, 0⟩ 100 50) 100 50 := by
  have hd : hypot ((10 : ℝ) - 0) ((0 : ℝ) - 0) = 10 := by
    rw [show ((10 : ℝ) - 0) = 10 by norm_num,
      show ((0 : ℝ) - 0) = 0 by norm_num]
    exact hypot_of_nonneg_zero (by norm_num)
  exact C7_theorem.1 ⟨0, 0⟩ ⟨10, 0⟩ 100 50 (by norm_num) (by norm_num)
    (by rw [hd]; norm_num)
    (by rw [hd, show |(100 : ℝ) - 50| = 50 by rw [abs_of_nonneg] <;> norm_num]
        norm_num)

/-! ## Claim C2 — zero-mass particles in the constraint solver -/

/-- A two-particle test configuration: a zero-mass particle at
`(100, 100)` and a unit-mass particle at `(110, 100)`, at rest. -/
def zeroMassPair : List PhysicsParticle :=
  [{ id := .root, pos := ⟨100, 100⟩, prevPos := ⟨100, 100⟩, mass := 0 },
   { id := .torso, pos := ⟨110, 100⟩, prevPos := ⟨110, 100⟩, mass := 1 }]

/-- C2 (code evaluated at the failing input): a distance constraint of
rest length `20` over `zeroMassPair` (current separation `10 ≥ 0.001`,
total mass `1 > 0`).  One relaxation of the constraint-solving phase
moves the zero-mass particle from `(100, 100)` to `(92.5, 100)` — it
absorbs the full correction instead of none of it (its share
`pBShare = 1/1 = 1`), contradicting the claim that a zero-mass
particle does not move. -/
theorem C2_theorem :
    ((applyConstraint zeroMassPair ⟨0, 1, 20⟩).get? 0).map (fun p => p.pos)
      = some ⟨92.5, 100⟩ ∧
    ((zeroMassPair.get? 0).map (fun p => p.pos) = some ⟨100, 100⟩) ∧
    (0 : ℝ) + 1 > 0 := by
  have hd : hypot ((110 : ℝ) - 100) ((100 : ℝ) - 100) = 10 := by
    rw [show ((110 : ℝ) - 100) = 10 by norm_num,
      show ((100 : ℝ) - 100) = 0 by norm_num]
    exact hypot_of_nonneg_zero (by norm_num)
  refine ⟨?_, by simp [zeroMassPair], by norm_num⟩
  simp only [applyConstraint, zeroMassPair, List.get?, hd]
  rw [if_neg (by norm_num), if_neg (by norm_num),
    if_neg (by norm_num : ¬ ((0:ℝ) > 0)), if_pos (by norm_num : (1:ℝ) > 0)]
  simp only [List.set, List.get?, Option.map_some]
  refine congrArg some ?_
  show Point.mk (100 + (110 - 100) * ((10 - 20) / 10) * STIFFNESS * (1 / (0 + 1)))
      (100 + (100 - 100) * ((10 - 20) / 10) * STIFFNESS * (1 / (0 + 1))) = ⟨92.5, 100⟩
  rw [Point.mk.injEq]
  constructor <;> norm_num [STIFFNESS]

/-! ## Claims C8 and C10 — boundary collisions -/

lemma collideParticle_floor {p : PhysicsParticle}
    (h1 : p.pos.y > H - PARTICLE_RADIUS)
    (h2 : PARTICLE_RADIUS ≤ p.pos.x) (h3 : p.pos.x ≤ W - PARTICLE_RADIUS) :
    collideParticle p =
      { p with pos := ⟨p.pos.x, H - PARTICLE_RADIUS⟩
               prevPos := ⟨p.prevPos.x - (p.pos.y - p.prevPos.y) * 0.15,
                           H - PARTICLE_RADIUS⟩ } := by
  simp only [collideParticle]
  rw [if_pos h1]
  rw [if_neg (show ¬ ((H : ℝ) - PARTICLE_RADIUS < PARTICLE_RADIUS) by
    norm_num [H, PARTICLE_RADIUS])]
  rw [if_neg (show ¬ (p.pos.x > W - PARTICLE_RADIUS) from not_lt.2 h3)]
  rw [if_neg (show ¬ (p.pos.x < PARTICLE_RADIUS) from not_lt.2 h2)]

lemma collideParticle_ceiling {p : PhysicsParticle}
    (h1 : p.pos.y < PARTICLE_RADIUS)
    (h2 : PARTICLE_RADIUS ≤ p.pos.x) (h3 : p.pos.x ≤ W - PARTICLE_RADIUS) :
    collideParticle p =
      { p with pos := ⟨p.pos.x, PARTICLE_RADIUS⟩
               prevPos := ⟨p.prevPos.x, PARTICLE_RADIUS⟩ } := by
  simp only [collideParticle]
  rw [if_neg (show ¬ (p.pos.y > H - PARTICLE_RADIUS) by
    push_neg
    have : (PARTICLE_RADIUS : ℝ) ≤ H - PARTICLE_RADIUS := by
      norm_num [H, PARTICLE_RADIUS]
    linarith)]
  rw [if_pos h1]
  rw [if_neg (show ¬ (p.pos.x > W - PARTICLE_RADIUS) from not_lt.2 h3)]
  rw [if_neg (show ¬ (p.pos.x < PARTICLE_RADIUS) from not_lt.2 h2)]

lemma collideParticle_right {p : PhysicsParticle}
    (h1 : p.pos.x > W - PARTICLE_RADIUS)
    (h2 : PARTICLE_RADIUS ≤ p.pos.y) (h3 : p.pos.y ≤ H - PARTICLE_RADIUS) :
    collideParticle p =
      { p with pos := ⟨W - PARTICLE_RADIUS, p.pos.y⟩
               prevPos := ⟨W - PARTICLE_RADIUS, p.prevPos.y⟩ } := by
  simp only [collideParticle]
  rw [if_neg (show ¬ (p.pos.y > H - PARTICLE_RADIUS) from not_lt.2 h3)]
  rw [if_neg (show ¬ (p.pos.y < PARTICLE_RADIUS) from not_lt.2 h2)]
  rw [if_pos h1]
  rw [if_neg (show ¬ ((W : ℝ) - PARTICLE_RADIUS < PARTICLE_RADIUS) by
    norm_num [W, PARTICLE_RADIUS])]

lemma collideParticle_left {p : PhysicsParticle}
    (h1 : p.pos.x < PARTICLE_RADIUS)
    (h2 : PARTICLE_RADIUS ≤ p.pos.y) (h3 : p.pos.y ≤ H - PARTICLE_RADIUS) :
    collideParticle p =
      { p with pos := ⟨PARTICLE_RADIUS, p.pos.y⟩
               prevPos := ⟨PARTICLE_RADIUS, p.prevPos.y⟩ } := by
  simp only [collideParticle]
  rw [if_neg (show ¬ (p.pos.y > H - PARTICLE_RADIUS) from not_lt.2 h3)]
  rw [if_neg (show ¬ (p.pos.y < PARTICLE_RADIUS) from not_lt.2 h2)]
  rw [if_neg (show ¬ (p.pos.x > W - PARTICLE_RADIUS) by
    push_neg
    have : (PARTICLE_RADIUS : ℝ) ≤ W - PARTICLE_RADIUS := by
      norm_num [W, PARTICLE_RADIUS]
    linarith)]
  rw [if_pos h1]

/-- C8: let `q` be a particle's state entering the collision phase of
`updatePhysicsBody` (after integration and constraint solving).  If
`q` crosses the floor (and no side wall), the step ends with `pos.y`
exactly at the floor bound, `prevPos.y = pos.y` (zero residual
vertical velocity), and `prevPos.x` offset by `0.15` of the pre-impact
vertical velocity; crossing the ceiling or a side wall only clamps
and zeroes the corresponding velocity component, with no transfer. -/
theorem C8_theorem (body : PhysicsBody) (dt : ℝ) (i : ℕ)
    (q : PhysicsParticle)
    (hq : (particlesAfterConstraints body dt).get? i = some q) :
    (q.pos.y > H - PARTICLE_RADIUS →
      PARTICLE_RADIUS ≤ q.pos.x → q.pos.x ≤ W - PARTICLE_RADIUS →
      (updatePhysicsBody body dt).particles.get? i = some
        { q with pos := ⟨q.pos.x, H - PARTICLE_RADIUS⟩
                 prevPos := ⟨q.prevPos.x - (q.pos.y - q.prevPos.y) * 0.15,
                             H - PARTICLE_RADIUS⟩ }) ∧
    (q.pos.y < PARTICLE_RADIUS →
      PARTICLE_RADIUS ≤ q.pos.x → q.pos.x ≤ W - PARTICLE_RADIUS →
      (updatePhysicsBody body dt).particles.get? i = some
        { q with pos := ⟨q.pos.x, PARTICLE_RADIUS⟩
                 prevPos := ⟨q.prevPos.x, PARTICLE_RADIUS⟩ }) ∧
    (q.pos.x > W - PARTICLE_RADIUS →
      PARTICLE_RADIUS ≤ q.pos.y → q.pos.y ≤ H - PARTICLE_RADIUS →
      (updatePhysicsBody body dt).particles.get? i = some
        { q with pos := ⟨W - PARTICLE_RADIUS, q.pos.y⟩
                 prevPos := ⟨W - PARTICLE_RADIUS, q.prevPos.y⟩ }) ∧
    (q.pos.x < PARTICLE_RADIUS →
      PARTICLE_RADIUS ≤ q.pos.y → q.pos.y ≤ H - PARTICLE_RADIUS →
      (updatePhysicsBody body dt).particles.get? i = some
        { q with pos := ⟨PARTICLE_RADIUS, q.pos.y⟩
                 prevPos := ⟨PARTICLE_RADIUS, q.prevPos.y⟩ }) := by
  have hbase : (updatePhysicsBody body dt).particles.get? i
      = some (collideParticle q) := by
    simp only [updatePhysicsBody, List.get?_map, hq]
    rfl
  refine ⟨?_, ?_, ?_, ?_⟩
  · intro h1 h2 h3
    rw [hbase, collideParticle_floor h1 h2 h3]
  · intro h1 h2 h3
    rw [hbase, collideParticle_ceiling h1 h2 h3]
  · intro h1 h2 h3
    rw [hbase, collideParticle_right h1 h2 h3]
  · intro h1 h2 h3
    rw [hbase, collideParticle_left h1 h2 h3]

/-- A one-particle body, no constraints: at `(100, 800)` moving down
(previous position `(100, 790)`). -/
def floorBody : PhysicsBody :=
  { particles := [{ id := .root, pos := ⟨100, 800⟩, prevPos := ⟨100, 790⟩,
                    mass := 1 }]
    constraints := []
    particleMap := fun _ => none }

lemma constraintPass_nil : constraintPass [] = id := by
  funext ps
  rfl

lemma floorBody_preCollision :
    (particlesAfterConstraints floorBody 0).get? 0 = some
      { id := .root, pos := ⟨100, 809.6⟩, prevPos := ⟨100, 800⟩, mass := 1 } := by
  simp only [particlesAfterConstraints, floorBody, constraintPass_nil,
    Function.iterate_id, id_eq, List.map, integrateParticle, SOLVER_ITERATIONS]
  rw [if_neg (by norm_num : (1 : ℝ) ≠ 0)]
  simp only [List.get?, Option.some.injEq]
  rw [PhysicsParticle.mk.injEq]
  refine ⟨rfl, ?_, rfl, rfl⟩
  rw [Point.mk.injEq]
  constructor <;> norm_num [FRICTION, GRAVITY]

/-- C8 witness: the floor clause of `C8_theorem` on `floorBody` with
`dt = 0`: the particle enters collision at `(100, 809.6)` with
previous position `(100, 800)` and ends the step at `(100, 795)` with
`prevPos = (98.56, 795)`. -/
theorem C8_witness :
    (updatePhysicsBody floorBody 0).particles.get? 0 = some
      { id := .root
        pos := ⟨100, H - PARTICLE_RADIUS⟩
        prevPos := ⟨100 - (809.6 - 800) * 0.15, H - PARTICLE_RADIUS⟩
        mass := 1 } :=
  (C8_theorem floorBody 0 0 _ floorBody_preCollision).1
    (by norm_num [H, PARTICLE_RADIUS])
    (by norm_num [PARTICLE_RADIUS])
    (by norm_num [W, PARTICLE_RADIUS])

lemma collideParticle_mem (p : PhysicsParticle) :
    PARTICLE_RADIUS ≤ (collideParticle p).pos.x ∧
    (collideParticle p).pos.x ≤ W - PARTICLE_RADIUS ∧
    PARTICLE_RADIUS ≤ (collideParticle p).pos.y ∧
    (collideParticle p).pos.y ≤ H - PARTICLE_RADIUS := by
  have hW : (PARTICLE_RADIUS : ℝ) ≤ W - PARTICLE_RADIUS := by
    norm_num [W, PARTICLE_RADIUS]
  have hH : (PARTICLE_RADIUS : ℝ) ≤ H - PARTICLE_RADIUS := by
    norm_num [H, PARTICLE_RADIUS]
  simp only [collideParticle]
  split_ifs <;> refine ⟨?_, ?_, ?_, ?_⟩ <;> simp_all <;> try linarith

/-- C10: after every `updatePhysicsBody` step, every particle's
position lies inside the stage rectangle inset by the particle radius:
`x ∈ [5, 795]` and `y ∈ [5, 795]` (with `W = H = 800` and radius `5`),
regardless of the incoming body, velocities, or constraint
corrections. -/
theorem C10_theorem (body : PhysicsBody) (dt : ℝ) (i : ℕ)
    (p : PhysicsParticle)
    (hp : (updatePhysicsBody body dt).particles.get? i = some p) :
    PARTICLE_RADIUS ≤ p.pos.x ∧ p.pos.x ≤ W - PARTICLE_RADIUS ∧
    PARTICLE_RADIUS ≤ p.pos.y ∧ p.pos.y ≤ H - PARTICLE_RADIUS := by
  simp only [updatePhysicsBody, List.get?_map] at hp
  rcases Option.map_eq_some'.1 hp with ⟨q, _, hcollide⟩
  rw [← hcollide]
  exact collideParticle_mem q

/-- A one-particle resting body strictly inside the stage. -/
def restingBody : PhysicsBody :=
  { particles := [{ id := .root, pos := ⟨100, 100⟩, prevPos := ⟨100, 100⟩,
                    mass := 1 }]
    constraints := []
    particleMap := fun _ => none }

lemma restingBody_update :
    (updatePhysicsBody restingBody 0).particles.get? 0 = some
      { id := .root, pos := ⟨100, 100⟩, prevPos := ⟨100, 100⟩, mass := 1 } := by
  have hpre : (particlesAfterConstraints restingBody 0).get? 0 = some
      { id := .root, pos := ⟨100, 100⟩, prevPos := ⟨100, 100⟩, mass := 1 } := by
    simp only [particlesAfterConstraints, restingBody, constraintPass_nil,
      Function.iterate_id, id_eq, List.map, integrateParticle, SOLVER_ITERATIONS]
    rw [if_neg (by norm_num : (1 : ℝ) ≠ 0)]
    simp only [List.get?, Option.some.injEq]
    rw [PhysicsParticle.mk.injEq]
    refine ⟨rfl, ?_, rfl, rfl⟩
    rw [Point.mk.injEq]
    constructor <;> norm_num [FRICTION, GRAVITY]
  simp only [updatePhysicsBody, List.get?_map, hpre]
  show some (collideParticle _) = _
  refine congrArg some ?_
  simp only [collideParticle, H, W, PARTICLE_RADIUS]
  norm_num

/-- C10 witness: the invariant applied to `restingBody` at `dt = 0`. -/
theorem C10_witness :
    PARTICLE_RADIUS ≤ (100 : ℝ) ∧ (100 : ℝ) ≤ W - PARTICLE_RADIUS ∧
    PARTICLE_RADIUS ≤ (100 : ℝ) ∧ (100 : ℝ) ≤ H - PARTICLE_RADIUS :=
  C10_theorem restingBody 0 0 _ restingBody_update

/-! ## Claim C3 — forward kinematics -/

/-- C3 counterexample: in the pose that is all zero except
`left.elbow = π`, the left elbow joint is *not* at its parent
(the left shoulder) plus `L_ARM·(cos, sin)` of the elbow's own world
angle: the bone from shoulder to elbow is laid out along the
*shoulder's* world angle, so the elbow sits at `(247, 250)` while the
claimed formula puts it at `(457, 250)`. -/
theorem C3_counterexample :
    (computeSkeleton { zeroPose with
        left := { zeroPose.left with elbow := π } }).joints .lElbow ≠
      getEndPoint
        ((computeSkeleton { zeroPose with
            left := { zeroPose.left with elbow := π } }).joints
          (parentOf .lElbow))
        ((computeSkeleton { zeroPose with
            left := { zeroPose.left with elbow := π } }).worldAngles .lElbow)
        L_ARM := by
  intro h
  have hx := congrArg Point.x h
  simp only [computeSkeleton, getEndPoint, zeroPose, parentOf, BASE_ANGLES,
    W, H, TORSO_HEIGHT, L_ARM, LIMB_LENGTH, HEAD_SIZE_UNIT,
    add_zero, zero_add, neg_add_cancel,
    show (-(π/2) + -(π/2) : ℝ) = -π from by ring,
    show (-(π/2) + -(π/2) + π : ℝ) = 0 from by ring,
    Real.cos_neg, Real.sin_neg, Real.cos_pi_div_two, Real.sin_pi_div_two,
    Real.cos_pi, Real.sin_pi, Real.cos_zero, Real.sin_zero] at hx
  norm_num at hx

/-- C3 (amended): `computeSkeleton` assigns world angles by the
recurrence `worldAngle(j) = worldAngle(parent j) + BaseAngle(j) +
localAngle(j)` for every non-root joint, with `worldAngle(root) = 0`,
and the root position is stage-center plus the pose offset.  Each
non-root joint's position is its parent's position plus a fixed length
along the world angle of the *bone* from the parent: the joint's own
world angle for torso, waist, and head; the *parent's* world angle for
elbows, hands, knees, and feet; and a fixed perpendicular offset
(±48 at right angles to the torso world angle for the shoulders,
±29 at right angles to the waist world angle for the hips),
independent of the shoulder/hip local angles. -/
theorem C3_theorem (pose : PoseData) :
    ((computeSkeleton pose).worldAngles .root = 0 ∧
     (computeSkeleton pose).joints .root =
       ⟨W / 2 + pose.offset.x, H / 2 + pose.offset.y⟩) ∧
    ((computeSkeleton pose).worldAngles .torso =
       (computeSkeleton pose).worldAngles (parentOf .torso)
         + BASE_ANGLES .torso + getPoseAngle pose .torso ∧
     (computeSkeleton pose).worldAngles .waist =
       (computeSkeleton pose).worldAngles (parentOf .waist)
         + BASE_ANGLES .waist + getPoseAngle pose .waist ∧
     (computeSkeleton pose).worldAngles .head =
       (computeSkeleton pose).worldAngles (parentOf .head)
         + BASE_ANGLES .head + getPoseAngle pose .head ∧
     (computeSkeleton pose).worldAngles .lShoulder =
       (computeSkeleton pose).worldAngles (parentOf .lShoulder)
         + BASE_ANGLES .lShoulder + getPoseAngle pose .lShoulder ∧
     (computeSkeleton pose).worldAngles .lElbow =
       (computeSkeleton pose).worldAngles (parentOf .lElbow)
         + BASE_ANGLES .lElbow + getPoseAngle pose .lElbow ∧
     (computeSkeleton pose).worldAngles .lHand =
       (computeSkeleton pose).worldAngles (parentOf .lHand)
         + BASE_ANGLES .lHand + getPoseAngle pose .lHand ∧
     (computeSkeleton pose).worldAngles .rShoulder =
       (computeSkeleton pose).worldAngles (parentOf .rShoulder)
         + BASE_ANGLES .rShoulder + getPoseAngle pose .rShoulder ∧
     (computeSkeleton pose).worldAngles .rElbow =
       (computeSkeleton pose).worldAngles (parentOf .rElbow)
         + BASE_ANGLES .rElbow + getPoseAngle pose .rElbow ∧
     (computeSkeleton pose).worldAngles .rHand =
       (computeSkeleton pose).worldAngles (parentOf .rHand)
         + BASE_ANGLES .rHand + getPoseAngle pose .rHand ∧
     (computeSkeleton pose).worldAngles .lHip =
       (computeSkeleton pose).worldAngles (parentOf .lHip)
         + BASE_ANGLES .lHip + getPoseAngle pose .lHip ∧
     (computeSkeleton pose).worldAngles .lKnee =
       (computeSkeleton pose).worldAngles (parentOf .lKnee)
         + BASE_ANGLES .lKnee + getPoseAngle pose .lKnee ∧
     (computeSkeleton pose).worldAngles .lFoot =
       (computeSkeleton pose).worldAngles (parentOf .lFoot)
         + BASE_ANGLES .lFoot + getPoseAngle pose .lFoot ∧
     (computeSkeleton pose).worldAngles .rHip =
       (computeSkeleton pose).worldAngles (parentOf .rHip)
         + BASE_ANGLES .rHip + getPoseAngle pose .rHip ∧
     (computeSkeleton pose).worldAngles .rKnee =
       (computeSkeleton pose).worldAngles (parentOf .rKnee)
         + BASE_ANGLES .rKnee + getPoseAngle pose .rKnee ∧
     (computeSkeleton pose).worldAngles .rFoot =
       (computeSkeleton pose).worldAngles (parentOf .rFoot)
         + BASE_ANGLES .rFoot + getPoseAngle pose .rFoot) ∧
    ((computeSkeleton pose).joints .torso =
       getEndPoint ((computeSkeleton pose).joints .root)
         ((computeSkeleton pose).worldAngles .torso) TORSO_HEIGHT ∧
     (computeSkeleton pose).joints .waist =
       getEndPoint ((computeSkeleton pose).joints .root)
         ((computeSkeleton pose).worldAngles .waist) WAIST_HEIGHT ∧
     (computeSkeleton pose).joints .head =
       getEndPoint ((computeSkeleton pose).joints .torso)
         ((computeSkeleton pose).worldAngles .head) (HEAD_SIZE / 2.5) ∧
     (computeSkeleton pose).joints .lShoulder =
       getEndPoint ((computeSkeleton pose).joints .torso)
         ((computeSkeleton pose).worldAngles .torso + π / 2) (-48) ∧
     (computeSkeleton pose).joints .rShoulder =
       getEndPoint ((computeSkeleton pose).joints .torso)
         ((computeSkeleton pose).worldAngles .torso + π / 2) 48 ∧
     (computeSkeleton pose).joints .lElbow =
       getEndPoint ((computeSkeleton pose).joints .lShoulder)
         ((computeSkeleton pose).worldAngles .lShoulder) L_ARM ∧
     (computeSkeleton pose).joints .lHand =
       getEndPoint ((computeSkeleton pose).joints .lElbow)
         ((computeSkeleton pose).worldAngles .lElbow) L_FOREARM ∧
     (computeSkeleton pose).joints .rElbow =
       getEndPoint ((computeSkeleton pose).joints .rShoulder)
         ((computeSkeleton pose).worldAngles .rShoulder) L_ARM ∧
     (computeSkeleton pose).joints .rHand =
       getEndPoint ((computeSkeleton pose).joints .rElbow)
         ((computeSkeleton pose).worldAngles .rElbow) L_FOREARM ∧
     (computeSkeleton pose).joints .lHip =
       getEndPoint ((computeSkeleton pose).joints .waist)
         ((computeSkeleton pose).worldAngles .waist - π / 2) (-29) ∧
     (computeSkeleton pose).joints .lKnee =
       getEndPoint ((computeSkeleton pose).joints .lHip)
         ((computeSkeleton pose).worldAngles .lHip) L_THIGH ∧
     (computeSkeleton pose).joints .lFoot =
       getEndPoint ((computeSkeleton pose).joints .lKnee)
         ((computeSkeleton pose).worldAngles .lKnee) L_SHIN ∧
     (computeSkeleton pose).joints .rHip =
       getEndPoint ((computeSkeleton pose).joints .waist)
         ((computeSkeleton pose).worldAngles .waist - π / 2) 29 ∧
     (computeSkeleton pose).joints .rKnee =
       getEndPoint ((computeSkeleton pose).joints .rHip)
         ((computeSkeleton pose).worldAngles .rHip) L_THIGH ∧
     (computeSkeleton pose).joints .rFoot =
       getEndPoint ((computeSkeleton pose).joints .rKnee)
         ((computeSkeleton pose).worldAngles .rKnee) L_SHIN) := by
  refine ⟨⟨?_, ?_⟩, ⟨?_, ?_, ?_, ?_, ?_, ?_, ?_, ?_, ?_, ?_, ?_, ?_, ?_, ?_, ?_⟩,
    ⟨?_, ?_, ?_, ?_, ?_, ?_, ?_, ?_, ?_, ?_, ?_, ?_, ?_, ?_, ?_⟩⟩ <;>
    first
      | rfl
      | (simp only [computeSkeleton, getPoseAngle, parentOf, BASE_ANGLES]
         ring)

/-! ## Claim C9 — shortest-path reconciliation in pose extraction -/

lemma getPoseAngle_set_same {k : Joint} (hk : k ≠ .root) (v : ℝ) (p : PoseData) :
    getPoseAngle (setPoseAngle k v p) k = v := by
  cases k <;> simp_all [setPoseAngle, getPoseAngle]

lemma getPoseAngle_set_other {k j : Joint} (hj : j ≠ k) (v : ℝ) (p : PoseData) :
    getPoseAngle (setPoseAngle k v p) j = getPoseAngle p j := by
  cases k <;> cases j <;> simp_all [setPoseAngle, getPoseAngle]

/-- A three-particle body holding only root, torso and waist particles
(root at stage centre, torso 150 above it, waist 75 below it). -/
def triBody : PhysicsBody :=
  { particles :=
      [{ id := .root, pos := ⟨400, 400⟩, prevPos := ⟨400, 400⟩, mass := 3 },
       { id := .torso, pos := ⟨400, 250⟩, prevPos := ⟨400, 250⟩, mass := 3 },
       { id := .waist, pos := ⟨400, 475⟩, prevPos := ⟨400, 475⟩, mass := 1.5 }]
    constraints := []
    particleMap := fun j => match j with
      | .root => some 0
      | .torso => some 1
      | .waist => some 2
      | _ => none }

/-- C9 counterexample: with a previous pose whose stored torso angle is
`10` (more than `3π` from the raw extracted angle `0`), the single
full-turn correction of `shortestAngleDiff` leaves a delta of
`2π - 10`, whose magnitude `10 - 2π ≈ 3.72` exceeds `π`: the written
torso angle is *not* within `π` of the previous one. -/
theorem C9_counterexample :
    |(extractPoseFromPhysicsBody triBody { zeroPose with torso := 10 }).torso
      - ({ zeroPose with torso := 10 } : PoseData).torso| > π := by
  have hroot : getParticlePos triBody .root = some ⟨400, 400⟩ := rfl
  have htorso : getParticlePos triBody .torso = some ⟨400, 250⟩ := rfl
  have hwaist : getParticlePos triBody .waist = some ⟨400, 475⟩ := rfl
  have hhead : getParticlePos triBody .head = none := rfl
  have hlsh : getParticlePos triBody .lShoulder = none := rfl
  have hrsh : getParticlePos triBody .rShoulder = none := rfl
  have hlhip : getParticlePos triBody .lHip = none := rfl
  have hrhip : getParticlePos triBody .rHip = none := rfl
  have hat : atan2 ((250 : ℝ) - 400) ((400 : ℝ) - 400) = -(π / 2) := by
    rw [show ((250 : ℝ) - 400) = -150 by norm_num,
      show ((400 : ℝ) - 400) = 0 by norm_num]
    exact atan2_neg_zero (by norm_num)
  have hpi := Real.pi_gt_three
  have hpi2 := Real.pi_lt_315
  have hsd : shortestAngleDiff 10 (atan2 ((250 : ℝ) - 400) ((400 : ℝ) - 400)
      - BASE_ANGLES .torso) = -10 + 2 * π := by
    rw [hat]
    simp only [shortestAngleDiff, BASE_ANGLES]
    rw [show (-(π / 2) - -(π / 2) - 10 : ℝ) = -10 by ring]
    rw [if_neg (by linarith), if_pos (by linarith)]
  have hext : (extractPoseFromPhysicsBody triBody
      { zeroPose with torso := 10 }).torso = 2 * π := by
    simp only [extractPoseFromPhysicsBody, hroot, htorso, hwaist,
      calculateAngles_succ, calculateAngles_zero, childrenOf,
      List.foldl_cons, List.foldl_nil]
    simp only [calcStep, htorso, hhead, hlsh, hrsh, hwaist, hlhip, hrhip]
    simp only [zeroPose, hsd]
    ring
  rw [hext]
  simp only [zeroPose]
  rw [abs_of_neg (by linarith)]
  linarith

/-! ## Claim C1 — pose → body → pose round trip -/

/-- Strict descendants of a joint in the hierarchy. -/
def subtreeOf : Joint → List Joint
  | .root => [.torso, .waist, .head, .lShoulder, .lElbow, .lHand,
              .rShoulder, .rElbow, .rHand, .lHip, .lKnee, .lFoot,
              .rHip, .rKnee, .rFoot]
  | .torso => [.head, .lShoulder, .lElbow, .lHand, .rShoulder, .rElbow, .rHand]
  | .waist => [.lHip, .lKnee, .lFoot, .rHip, .rKnee, .rFoot]
  | .head => []
  | .lShoulder => [.lElbow, .lHand]
  | .lElbow => [.lHand]
  | .lHand => []
  | .rShoulder => [.rElbow, .rHand]
  | .rElbow => [.rHand]
  | .rHand => []
  | .lHip => [.lKnee, .lFoot]
  | .lKnee => [.lFoot]
  | .lFoot => []
  | .rHip => [.rKnee, .rFoot]
  | .rKnee => [.rFoot]
  | .rFoot => []

lemma childrenOf_mem_subtree :
    ∀ pk c : Joint, c ∈ childrenOf pk → c ∈ subtreeOf pk := by
  decide

lemma subtree_trans :
    ∀ pk c : Joint, c ∈ childrenOf pk →
      ∀ x : Joint, x ∈ subtreeOf c → x ∈ subtreeOf pk := by
  decide

/-- `calculateAngles` started at `pk` only writes strict descendants
of `pk`. -/
lemma calc_preserve (body : PhysicsBody) (prev : PoseData) :
    ∀ (fuel : ℕ) (pk : Joint) (wa : ℝ) (acc : PoseData) (j : Joint),
      j ∉ subtreeOf pk →
      getPoseAngle (calculateAngles body prev fuel pk wa acc) j
        = getPoseAngle acc j := by
  intro fuel
  induction fuel with
  | zero =>
    intro pk wa acc j hj
    rw [calculateAngles_zero]
  | succ n ih =>
    intro pk wa acc j hj
    rw [calculateAngles_succ]
    have hfold : ∀ (l : List Joint), (∀ c ∈ l, c ∈ childrenOf pk) →
        ∀ acc2 : PoseData,
        getPoseAngle (l.foldl
          (calcStep body prev
            (fun ck cwa acc3 => calculateAngles body prev n ck cwa acc3)
            pk wa) acc2) j = getPoseAngle acc2 j := by
      intro l
      induction l with
      | nil =>
        intro _ acc2
        rfl
      | cons c cs ihl =>
        intro hsub acc2
        rw [List.foldl_cons]
        rw [ihl (fun x hx => hsub x (List.mem_cons_of_mem c hx))]
        have hc : c ∈ childrenOf pk := hsub c (List.mem_cons_self c cs)
        have hjc : j ≠ c := by
          intro heq
          exact hj (heq ▸ childrenOf_mem_subtree pk c hc)
        have hjsub : j ∉ subtreeOf c := by
          intro hmem
          exact hj (subtree_trans pk c hc j hmem)
        unfold calcStep
        cases getParticlePos body pk with
        | none => rfl
        | some pp =>
          cases getParticlePos body c with
          | none => rfl
          | some cp =>
            simp only []
            rw [ih c _ _ j hjsub, getPoseAngle_set_other hjc]
    exact hfold _ (fun c hc => hc) acc

lemma setPoseAngle_offset (k : Joint) (v : ℝ) (p : PoseData) :
    (setPoseAngle k v p).offset = p.offset := by
  cases k <;> rfl

/-- `calculateAngles` never touches the offset. -/
lemma calc_preserve_offset (body : PhysicsBody) (prev : PoseData) :
    ∀ (fuel : ℕ) (pk : Joint) (wa : ℝ) (acc : PoseData),
      (calculateAngles body prev fuel pk wa acc).offset = acc.offset := by
  intro fuel
  induction fuel with
  | zero =>
    intro pk wa acc
    rw [calculateAngles_zero]
  | succ n ih =>
    intro pk wa acc
    rw [calculateAngles_succ]
    have hfold : ∀ (l : List Joint) (acc2 : PoseData),
        ((l.foldl (calcStep body prev
            (fun ck cwa acc3 => calculateAngles body prev n ck cwa acc3)
            pk wa) acc2)).offset = acc2.offset := by
      intro l
      induction l with
      | nil => intro acc2; rfl
      | cons c cs ihl =>
        intro acc2
        rw [List.foldl_cons, ihl]
        unfold calcStep
        cases getParticlePos body pk with
        | none => rfl
        | some pp =>
          cases getParticlePos body c with
          | none => rfl
          | some cp =>
            simp only []
            rw [ih, setPoseAngle_offset]
    exact hfold _ acc

/-- Reading a joint that is neither the processed child nor one of its
descendants through one `calcStep` is the identity. -/
lemma getPoseAngle_calcStep_other {body : PhysicsBody} {prev : PoseData}
    {n : ℕ} {pk : Joint} {wa : ℝ} {acc : PoseData} {c j : Joint}
    (hj1 : j ∉ subtreeOf c) (hj2 : j ≠ c) :
    getPoseAngle (calcStep body prev
      (fun ck cwa acc2 => calculateAngles body prev n ck cwa acc2)
      pk wa acc c) j = getPoseAngle acc j := by
  unfold calcStep
  cases getParticlePos body pk with
  | none => rfl
  | some pp =>
    cases getParticlePos body c with
    | none => rfl
    | some cp =>
      simp only []
      rw [calc_preserve body prev n c _ _ j hj1, getPoseAngle_set_other hj2]

/-- In the body built by `createPhysicsBodyFromPose`, every joint's
particle exists and sits at the skeleton position of that joint. -/
lemma getParticlePos_create (P : PoseData) (j : Joint) :
    getParticlePos (createPhysicsBodyFromPose P) j
      = some ((computeSkeleton P).joints j) := by
  cases j <;> rfl

/-- Reconciling through `shortestAngleDiff` against a raw angle read
off a polar segment of true angle `C + prev` (with `C + prev` within
`[-5π/2, 3π/2]`) returns exactly `prev`: the `atan2` principal value is
the true angle shifted by a full turn at most once, and the single-turn
wrap cancels that shift. -/
lemma reconcile_eq2 {prev C ang r : ℝ} (hr : 0 < r) (hang : ang = C + prev)
    (hlow : -(5 * π / 2) ≤ ang) (hhigh : ang ≤ 3 * π / 2) :
    prev + shortestAngleDiff prev
      (atan2 (Real.sin ang * r) (Real.cos ang * r) - C) = prev := by
  subst hang
  have hpi := Real.pi_pos
  rcases le_or_lt (C + prev) (-π) with hle | hgt
  · have hmem : C + prev + 2 * π ∈ Set.Ioc (-π) π := ⟨by linarith, by linarith⟩
    rw [show Real.sin (C + prev) * r = r * Real.sin (C + prev + 2 * π) from by
        rw [Real.sin_add_two_pi]; ring,
      show Real.cos (C + prev) * r = r * Real.cos (C + prev + 2 * π) from by
        rw [Real.cos_add_two_pi]; ring,
      atan2_polar hr hmem,
      show C + prev + 2 * π - C = prev + 2 * π from by ring,
      shortestAngleDiff_add_two_pi]
    ring
  · rcases le_or_lt (C + prev) π with hle2 | hgt2
    · rw [show Real.sin (C + prev) * r = r * Real.sin (C + prev) from by ring,
        show Real.cos (C + prev) * r = r * Real.cos (C + prev) from by ring,
        atan2_polar hr ⟨hgt, hle2⟩,
        show C + prev - C = prev from by ring,
        shortestAngleDiff_self]
      ring
    · have hmem : C + prev - 2 * π ∈ Set.Ioc (-π) π := ⟨by linarith, by linarith⟩
      rw [show Real.sin (C + prev) * r = r * Real.sin (C + prev - 2 * π) from by
          rw [Real.sin_sub_two_pi]; ring,
        show Real.cos (C + prev) * r = r * Real.cos (C + prev - 2 * π) from by
          rw [Real.cos_sub_two_pi]; ring,
        atan2_polar hr hmem,
        show C + prev - 2 * π - C = prev - 2 * π from by ring,
        shortestAngleDiff_sub_two_pi]
      ring

lemma extract_create_offset (P : PoseData) :
    (extractPoseFromPhysicsBody (createPhysicsBodyFromPose P) P).offset
      = P.offset := by
  simp only [extractPoseFromPhysicsBody, getParticlePos_create]
  rw [calc_preserve_offset, calc_preserve_offset]
  simp only [computeSkeleton, W, H]
  rw [Point.mk.injEq]
  constructor <;> ring

lemma extract_create_torso (P : PoseData)
    (h1 : -π ≤ P.torso) (h2 : P.torso ≤ π) :
    (extractPoseFromPhysicsBody (createPhysicsBodyFromPose P) P).torso
      = P.torso := by
  have hpi := Real.pi_pos
  simp only [extractPoseFromPhysicsBody, getParticlePos_create]
  have hp1 : (.torso : Joint) ∉ subtreeOf .waist := by decide
  have hp2 : (.torso : Joint) ∉ subtreeOf .torso := by decide
  rw [show ∀ q : PoseData, q.torso = getPoseAngle q .torso from fun q => rfl]
  rw [calc_preserve _ _ _ _ _ _ _ hp1, calc_preserve _ _ _ _ _ _ _ hp2]
  simp only [computeSkeleton, getEndPoint, BASE_ANGLES, getPoseAngle,
    add_sub_cancel_left]
  exact reconcile_eq2 (by norm_num [TORSO_HEIGHT]) rfl
    (by linarith) (by linarith)

lemma extract_create_waist (P : PoseData)
    (h1 : -π ≤ P.waist) (h2 : P.waist ≤ π) :
    (extractPoseFromPhysicsBody (createPhysicsBodyFromPose P) P).waist
      = P.waist := by
  have hpi := Real.pi_pos
  simp only [extractPoseFromPhysicsBody, getParticlePos_create]
  have hp1 : (.waist : Joint) ∉ subtreeOf .waist := by decide
  have hp2 : (.waist : Joint) ∉ subtreeOf .torso := by decide
  rw [show ∀ q : PoseData, q.waist = getPoseAngle q .waist from fun q => rfl]
  rw [calc_preserve _ _ _ _ _ _ _ hp1, calc_preserve _ _ _ _ _ _ _ hp2]
  simp only [computeSkeleton, getEndPoint, BASE_ANGLES, getPoseAngle,
    add_sub_cancel_left]
  exact reconcile_eq2 (by norm_num [WAIST_HEIGHT]) rfl
    (by linarith) (by linarith)

lemma extract_create_head (P : PoseData)
    (ht1 : -π ≤ P.torso) (ht2 : P.torso ≤ π)
    (hh1 : -π ≤ P.head) (hh2 : P.head ≤ π) :
    (extractPoseFromPhysicsBody (createPhysicsBodyFromPose P) P).head
      = P.head := by
  have hpi := Real.pi_pos
  simp only [extractPoseFromPhysicsBody, getParticlePos_create]
  have hp1 : (.head : Joint) ∉ subtreeOf .waist := by decide
  rw [show ∀ q : PoseData, q.head = getPoseAngle q .head from fun q => rfl]
  rw [calc_preserve _ _ _ _ _ _ _ hp1]
  rw [show (16 : ℕ) = 15 + 1 from rfl, calculateAngles_succ]
  simp only [childrenOf, List.foldl_cons, List.foldl_nil]
  rw [getPoseAngle_calcStep_other (by decide) (by decide)]
  rw [getPoseAngle_calcStep_other (by decide) (by decide)]
  simp only [calcStep, getParticlePos_create]
  rw [calc_preserve _ _ _ _ _ _ _
    (show (.head : Joint) ∉ subtreeOf .head by decide)]
  rw [getPoseAngle_set_same (show (.head : Joint) ≠ .root by decide)]
  simp only [computeSkeleton, getEndPoint, BASE_ANGLES, getPoseAngle,
    add_sub_cancel_left, add_zero, sub_zero]
  have hT : P.torso + shortestAngleDiff P.torso
      (atan2 (Real.sin (-(π / 2) + P.torso) * TORSO_HEIGHT)
        (Real.cos (-(π / 2) + P.torso) * TORSO_HEIGHT) - -(π / 2)) = P.torso :=
    @reconcile_eq2 P.torso (-(π / 2)) (-(π / 2) + P.torso) TORSO_HEIGHT
      (by norm_num [TORSO_HEIGHT]) rfl (by linarith) (by linarith)
  rw [hT]
  exact @reconcile_eq2 P.head (-(π / 2) + P.torso)
    (-(π / 2) + P.torso + P.head) (HEAD_SIZE / 2.5)
    (by norm_num [HEAD_SIZE, HEAD_SIZE_UNIT]) rfl (by linarith) (by linarith)

/-- C1 (amended): building a physics body from a pose and immediately
extracting a pose (zero simulation steps) reproduces the root offset
exactly, and the torso, waist and head local angles exactly, for any
pose whose torso, waist and head angles lie in `[-π, π]`.  The limb
angles (shoulders, elbows, hands, hips, knees, feet) are *not*
reproduced: the shoulder and hip particles sit at fixed perpendicular
offsets from the torso/waist particles, so their extracted raw angles
are constants independent of the pose, and every angle further down
the chain is shifted accordingly. -/
theorem C1_theorem (P : PoseData)
    (ht1 : -π ≤ P.torso) (ht2 : P.torso ≤ π)
    (hw1 : -π ≤ P.waist) (hw2 : P.waist ≤ π)
    (hh1 : -π ≤ P.head) (hh2 : P.head ≤ π) :
    (extractPoseFromPhysicsBody (createPhysicsBodyFromPose P) P).offset
      = P.offset ∧
    (extractPoseFromPhysicsBody (createPhysicsBodyFromPose P) P).torso
      = P.torso ∧
    (extractPoseFromPhysicsBody (createPhysicsBodyFromPose P) P).waist
      = P.waist ∧
    (extractPoseFromPhysicsBody (createPhysicsBodyFromPose P) P).head
      = P.head :=
  ⟨extract_create_offset P, extract_create_torso P ht1 ht2,
   extract_create_waist P hw1 hw2, extract_create_head P ht1 ht2 hh1 hh2⟩

/-- C1 witness: the amended theorem at the all-zero pose. -/
theorem C1_witness :
    (extractPoseFromPhysicsBody (createPhysicsBodyFromPose zeroPose)
      zeroPose).offset = zeroPose.offset ∧
    (extractPoseFromPhysicsBody (createPhysicsBodyFromPose zeroPose)
      zeroPose).torso = zeroPose.torso ∧
    (extractPoseFromPhysicsBody (createPhysicsBodyFromPose zeroPose)
      zeroPose).waist = zeroPose.waist ∧
    (extractPoseFromPhysicsBody (createPhysicsBodyFromPose zeroPose)
      zeroPose).head = zeroPose.head :=
  C1_theorem zeroPose
    (by simp [zeroPose, Real.pi_nonneg]) (by simp [zeroPose, Real.pi_nonneg])
    (by simp [zeroPose, Real.pi_nonneg]) (by simp [zeroPose, Real.pi_nonneg])
    (by simp [zeroPose, Real.pi_nonneg]) (by simp [zeroPose, Real.pi_nonneg])

/-- C1 counterexample: for the pose that is all zero except
`left.shoulder = 1`, the immediate round trip returns a left-shoulder
angle of `0`, not `1`: the torso→shoulder particle segment is a fixed
perpendicular offset whose direction carries no information about the
shoulder's local angle, so the extraction reconciles the previous
angle `1` against the constant raw angle `0 (mod 2π)`. -/
theorem C1_counterexample :
    (extractPoseFromPhysicsBody
      (createPhysicsBodyFromPose
        { zeroPose with left := { zeroPose.left with shoulder := 1 } })
      { zeroPose with left := { zeroPose.left with shoulder := 1 } }
      ).left.shoulder = 0 ∧
    ({ zeroPose with left := { zeroPose.left with shoulder := 1 } }
      : PoseData).left.shoulder = 1 := by
  refine ⟨?_, rfl⟩
  have hpi := Real.pi_gt_three
  simp only [extractPoseFromPhysicsBody, getParticlePos_create]
  rw [show ∀ q : PoseData, q.left.shoulder = getPoseAngle q .lShoulder from
    fun q => rfl]
  rw [calc_preserve _ _ _ _ _ _ _
    (show (.lShoulder : Joint) ∉ subtreeOf .waist by decide)]
  rw [show (16 : ℕ) = 15 + 1 from rfl, calculateAngles_succ]
  simp only [childrenOf, List.foldl_cons, List.foldl_nil]
  rw [getPoseAngle_calcStep_other (by decide) (by decide)]
  simp only [calcStep, getParticlePos_create]
  rw [calc_preserve _ _ _ _ _ _ _
    (show (.lShoulder : Joint) ∉ subtreeOf .lShoulder by decide)]
  rw [getPoseAngle_set_same (show (.lShoulder : Joint) ≠ .root by decide)]
  have ha1 : atan2 (-150 : ℝ) 0 = -(π / 2) := atan2_neg_zero (by norm_num)
  have ha2 : atan2 (0 : ℝ) (-48) = π := atan2_zero_of_neg (by norm_num)
  simp only [computeSkeleton, getEndPoint, getPoseAngle, BASE_ANGLES, zeroPose,
    TORSO_HEIGHT, add_zero, zero_add, add_sub_cancel_left, neg_add_cancel,
    Real.sin_neg, Real.cos_neg, Real.sin_pi_div_two, Real.cos_pi_div_two,
    Real.sin_zero, Real.cos_zero, one_mul, zero_mul, neg_one_mul, neg_zero,
    ha1, ha2, sub_self, shortestAngleDiff_self]
  rw [show (π - -(π / 2) - -(π / 2) : ℝ) = 2 * π from by ring]
  simp only [shortestAngleDiff]
  rw [if_pos (by linarith : 2 * π - 1 > π)]
  ring

/-- No joint is its own strict descendant. -/
lemma self_not_mem_subtreeOf : ∀ j : Joint, j ∉ subtreeOf j := by
  decide

/-- C9 (amended): every local angle written by
`extractPoseFromPhysicsBody` equals the previous pose's stored angle
plus `shortestAngleDiff(previous, raw)` for the *code's* raw extracted
angle: the top-level torso and waist writes use
`raw = atan2(particle delta) - base angle`; the head write (through
the full extraction) uses `raw = atan2(head - torso) - (base torso +
extracted torso) - base head`; and every recursive per-child write of
the extraction uses `raw = atan2(child - parent) - parentWorldAngle -
base angle`.  The correction is a single full turn: its magnitude
never exceeds `|raw - previous|`, and never exceeds `π` provided the
raw angle is within `3π` of the previous stored angle. -/
theorem C9_theorem (body : PhysicsBody) (previousPose : PoseData) :
    (∀ rootPos torsoPos waistPos : Point,
      getParticlePos body .root = some rootPos →
      getParticlePos body .torso = some torsoPos →
      getParticlePos body .waist = some waistPos →
      (extractPoseFromPhysicsBody body previousPose).torso
        = previousPose.torso + shortestAngleDiff previousPose.torso
            (atan2 (torsoPos.y - rootPos.y) (torsoPos.x - rootPos.x)
              - BASE_ANGLES .torso) ∧
      (extractPoseFromPhysicsBody body previousPose).waist
        = previousPose.waist + shortestAngleDiff previousPose.waist
            (atan2 (waistPos.y - rootPos.y) (waistPos.x - rootPos.x)
              - BASE_ANGLES .waist) ∧
      (∀ headPos : Point, getParticlePos body .head = some headPos →
        (extractPoseFromPhysicsBody body previousPose).head
          = previousPose.head + shortestAngleDiff previousPose.head
              (atan2 (headPos.y - torsoPos.y) (headPos.x - torsoPos.x)
                - (BASE_ANGLES .torso
                    + (extractPoseFromPhysicsBody body previousPose).torso)
                - BASE_ANGLES .head))) ∧
    (∀ (fuel : ℕ) (parentKey : Joint) (parentWorldAngle : ℝ)
        (acc : PoseData) (childKey : Joint) (parentPos childPos : Point),
      childKey ≠ .root →
      getParticlePos body parentKey = some parentPos →
      getParticlePos body childKey = some childPos →
      getPoseAngle (calcStep body previousPose
          (fun ck cwa acc2 =>
            calculateAngles body previousPose fuel ck cwa acc2)
          parentKey parentWorldAngle acc childKey) childKey
        = getPoseAngle previousPose childKey
            + shortestAngleDiff (getPoseAngle previousPose childKey)
                (atan2 (childPos.y - parentPos.y) (childPos.x - parentPos.x)
                  - parentWorldAngle - BASE_ANGLES childKey)) ∧
    (∀ a b : ℝ, |shortestAngleDiff a b| ≤ |b - a|) ∧
    (∀ a b : ℝ, |b - a| ≤ 3 * π → |shortestAngleDiff a b| ≤ π) := by
  have hstep : ∀ (fuel : ℕ) (parentKey : Joint) (parentWorldAngle : ℝ)
      (acc : PoseData) (childKey : Joint) (parentPos childPos : Point),
      childKey ≠ .root →
      getParticlePos body parentKey = some parentPos →
      getParticlePos body childKey = some childPos →
      getPoseAngle (calcStep body previousPose
          (fun ck cwa acc2 =>
            calculateAngles body previousPose fuel ck cwa acc2)
          parentKey parentWorldAngle acc childKey) childKey
        = getPoseAngle previousPose childKey
            + shortestAngleDiff (getPoseAngle previousPose childKey)
                (atan2 (childPos.y - parentPos.y) (childPos.x - parentPos.x)
                  - parentWorldAngle - BASE_ANGLES childKey) := by
    intro fuel pk wa acc c pp cp hc0 hpp hcp
    simp only [calcStep, hpp, hcp]
    rw [calc_preserve _ _ _ _ _ _ _ (self_not_mem_subtreeOf c)]
    rw [getPoseAngle_set_same hc0]
  refine ⟨?_, hstep, abs_shortestAngleDiff_le,
    fun a b h => abs_shortestAngleDiff_le_pi h⟩
  intro rootPos torsoPos waistPos hroot htorso hwaist
  have htorsoEq : (extractPoseFromPhysicsBody body previousPose).torso
      = previousPose.torso + shortestAngleDiff previousPose.torso
          (atan2 (torsoPos.y - rootPos.y) (torsoPos.x - rootPos.x)
            - BASE_ANGLES .torso) := by
    simp only [extractPoseFromPhysicsBody, hroot, htorso, hwaist]
    rw [show ∀ q : PoseData, q.torso = getPoseAngle q .torso from fun q => rfl]
    rw [calc_preserve _ _ _ _ _ _ _
        (show (.torso : Joint) ∉ subtreeOf .waist by decide),
      calc_preserve _ _ _ _ _ _ _
        (show (.torso : Joint) ∉ subtreeOf .torso by decide)]
    rfl
  have hwaistEq : (extractPoseFromPhysicsBody body previousPose).waist
      = previousPose.waist + shortestAngleDiff previousPose.waist
          (atan2 (waistPos.y - rootPos.y) (waistPos.x - rootPos.x)
            - BASE_ANGLES .waist) := by
    simp only [extractPoseFromPhysicsBody, hroot, htorso, hwaist]
    rw [show ∀ q : PoseData, q.waist = getPoseAngle q .waist from fun q => rfl]
    rw [calc_preserve _ _ _ _ _ _ _
        (show (.waist : Joint) ∉ subtreeOf .waist by decide),
      calc_preserve _ _ _ _ _ _ _
        (show (.waist : Joint) ∉ subtreeOf .torso by decide)]
    rfl
  refine ⟨htorsoEq, hwaistEq, ?_⟩
  intro headPos hhead
  rw [htorsoEq]
  simp only [extractPoseFromPhysicsBody, hroot, htorso, hwaist]
  rw [show ∀ q : PoseData, q.head = getPoseAngle q .head from fun q => rfl]
  rw [calc_preserve _ _ _ _ _ _ _
    (show (.head : Joint) ∉ subtreeOf .waist by decide)]
  rw [show (16 : ℕ) = 15 + 1 from rfl, calculateAngles_succ]
  simp only [childrenOf, List.foldl_cons, List.foldl_nil]
  rw [getPoseAngle_calcStep_other (by decide) (by decide)]
  rw [getPoseAngle_calcStep_other (by decide) (by decide)]
  rw [hstep 15 .torso _ _ .head torsoPos headPos (by decide) htorso hhead]
  rfl

/-- C9 witness: the amended statement exercised on `triBody` (root at
`(400,400)`, torso particle at `(400,250)`, waist at `(400,475)`) with
the all-zero previous pose: the written torso angle through the full
extraction, and one recursive write step for the torso as a child of
the root. -/
theorem C9_witness :
    ((extractPoseFromPhysicsBody triBody zeroPose).torso
      = zeroPose.torso + shortestAngleDiff zeroPose.torso
          (atan2 ((250 : ℝ) - 400) ((400 : ℝ) - 400)
            - BASE_ANGLES .torso)) ∧
    (getPoseAngle (calcStep triBody zeroPose
        (fun ck cwa acc2 => calculateAngles triBody zeroPose 0 ck cwa acc2)
        .root 0 zeroPose .torso) .torso
      = getPoseAngle zeroPose .torso
          + shortestAngleDiff (getPoseAngle zeroPose .torso)
              (atan2 ((250 : ℝ) - 400) ((400 : ℝ) - 400)
                - 0 - BASE_ANGLES .torso)) :=
  ⟨((C9_theorem triBody zeroPose).1 ⟨400, 400⟩ ⟨400, 250⟩ ⟨400, 475⟩
      rfl rfl rfl).1,
   (C9_theorem triBody zeroPose).2.1 0 .root 0 zeroPose .torso
      ⟨400, 400⟩ ⟨400, 250⟩ (by decide) rfl rfl⟩
